import Mathlib

/-!
Verification of the `mcp_generator` core pipeline (naming engine, security
extraction, resource/tool spec building and rendering, module composition)
against its natural-language specification.

The Python sources are shallowly embedded: strings are modelled as `String`
(lists of characters), dictionaries as association lists in insertion order,
`None`-able values as `Option`, and Python's ASCII-relevant case handling
(`str.lower`, the regex classes `[a-z0-9]` and `[A-Z]`) over the ASCII
letters, which is the range the generator's identifiers live in.
-/

namespace McpGen

/-! ## Generic character/list/string utilities used by the embedding -/

/-- Boolean prefix test on character lists (mirrors anchored string matching). -/
def isPrefixOfB : List Char → List Char → Bool
  | [], _ => true
  | _ :: _, [] => false
  | a :: as, b :: bs => a == b && isPrefixOfB as bs

/-- Boolean substring test (Python's `needle in haystack`). -/
def containsB (pat : List Char) : List Char → Bool
  | [] => isPrefixOfB pat []
  | c :: rest => if isPrefixOfB pat (c :: rest) then true else containsB pat rest

/-- String-level wrapper for `containsB`. -/
def containsS (s pat : String) : Bool := containsB pat.data s.data

/-- Fuel-driven leftmost non-overlapping replacement, one unit of fuel per
consumed character; with `fuel = l.length` this is Python's `str.replace`. -/
def replaceFuel (pat repl : List Char) : Nat → List Char → List Char
  | 0, l => l
  | _, [] => []
  | fuel + 1, c :: rest =>
    if !pat.isEmpty && isPrefixOfB pat (c :: rest) then
      repl ++ replaceFuel pat repl fuel (rest.drop (pat.length - 1))
    else
      c :: replaceFuel pat repl fuel rest

/-- Python `s.replace(pat, repl)` (all leftmost non-overlapping occurrences). -/
def replaceStr (s pat repl : String) : String :=
  String.mk (replaceFuel pat.data repl.data s.data.length s.data)

/-- Split a character list at every occurrence of a separator character;
Python `s.split(sep)` for a one-character separator. -/
def splitCharAux (sep : Char) : List Char → List Char → List (List Char)
  | [], acc => [acc.reverse]
  | c :: rest, acc =>
    if c == sep then acc.reverse :: splitCharAux sep rest [] else splitCharAux sep rest (c :: acc)

/-- Python `s.split(sep)` for a one-character separator, at `String` level. -/
def splitChar (sep : Char) (s : String) : List String :=
  (splitCharAux sep s.data []).map String.mk

/-- Python `sep.join(parts)`. -/
def joinWith (sep : String) : List String → String
  | [] => ""
  | x :: rest => rest.foldl (fun acc y => acc ++ sep ++ y) x

/-- Concatenation of a list of strings (Python `"".join`, f-string splicing). -/
def concatParts (parts : List String) : String := parts.foldl (· ++ ·) ""

/-- The 26 ASCII upper-case letters with their lower-case forms; this is the
character class `[A-Z]` together with Python's `str.lower` action on it. -/
def lowerPairs : List (Char × Char) :=
  [('A', 'a'), ('B', 'b'), ('C', 'c'), ('D', 'd'), ('E', 'e'), ('F', 'f'), ('G', 'g'),
   ('H', 'h'), ('I', 'i'), ('J', 'j'), ('K', 'k'), ('L', 'l'), ('M', 'm'), ('N', 'n'),
   ('O', 'o'), ('P', 'p'), ('Q', 'q'), ('R', 'r'), ('S', 's'), ('T', 't'), ('U', 'u'),
   ('V', 'v'), ('W', 'w'), ('X', 'x'), ('Y', 'y'), ('Z', 'z')]

/-- Membership in the regex character class `[A-Z]`. -/
def isUpperB (c : Char) : Bool := (lowerPairs.lookup c).isSome

/-- The regex character class `[a-z0-9]` (lower-case letters and digits). -/
def lowerDigitChars : List Char :=
  ['a', 'b', 'c', 'd', 'e', 'f', 'g', 'h', 'i', 'j', 'k', 'l', 'm', 'n', 'o', 'p', 'q',
   'r', 's', 't', 'u', 'v', 'w', 'x', 'y', 'z', '0', '1', '2', '3', '4', '5', '6', '7',
   '8', '9']

/-- Membership in the regex character class `[a-z0-9]`. -/
def isLowerDigitB (c : Char) : Bool := lowerDigitChars.contains c

/-- Python `str.lower` on one character (ASCII range). -/
def asciiLowerChar (c : Char) : Char := (lowerPairs.lookup c).getD c

/-- Python `str.lower` on a character list (ASCII range). -/
def asciiLowerList (l : List Char) : List Char := l.map asciiLowerChar

/-- Python `str.lower` at `String` level (ASCII range). -/
def asciiLowerStr (s : String) : String := String.mk (asciiLowerList s.data)

/-- Lexicographic (code-point) `≤` on character lists: Python string ordering. -/
def lexLeChars : List Char → List Char → Bool
  | [], _ => true
  | _ :: _, [] => false
  | a :: as, b :: bs =>
    if a.toNat < b.toNat then true
    else if b.toNat < a.toNat then false
    else lexLeChars as bs

/-- Python `s1 <= s2` on strings (code-point lexicographic order). -/
def strLeB (a b : String) : Bool := lexLeChars a.data b.data

/-- Insert into a `strLeB`-sorted list. -/
def insertStr (x : String) : List String → List String
  | [] => [x]
  | y :: rest => if strLeB x y then x :: y :: rest else y :: insertStr x rest

/-- Python `sorted` on a list of strings (insertion sort; on strings any
stable or unstable comparison sort produces the same value list). -/
def sortStrings : List String → List String
  | [] => []
  | x :: rest => insertStr x (sortStrings rest)

/-! ## Naming engine: `config.py` tables and `utils.sanitize_name` -/

/-- `config.TOOL_NAME_OVERRIDES` (shipped empty). -/
def TOOL_NAME_OVERRIDES : List (String × String) := []

/-- `config.TOOL_NAME_ABBREVIATIONS` (shipped empty). -/
def TOOL_NAME_ABBREVIATIONS : List (String × String) := []

/-- `config.MAX_TOOL_NAME_LENGTH`. -/
def MAX_TOOL_NAME_LENGTH : Nat := 64

/-- One verb prefix attempt of the regex `^(get|post|put|delete|patch)_(.+)$`:
the verb followed by an underscore must be a prefix and the remainder
(the `(.+)` group) must be non-empty. -/
def tryVerb (verbU : List Char) (l : List Char) : Bool :=
  isPrefixOfB verbU l && !(l.drop verbU.length).isEmpty

/-- Anchored match of `^(get|post|put|delete|patch)_(.+)$`, returning the verb
and the remainder, trying the alternatives in the regex's order. -/
def stripVerb (l : List Char) : Option (List Char × List Char) :=
  if tryVerb ['g', 'e', 't', '_'] l then some (['g', 'e', 't'], l.drop 4)
  else if tryVerb ['p', 'o', 's', 't', '_'] l then some (['p', 'o', 's', 't'], l.drop 5)
  else if tryVerb ['p', 'u', 't', '_'] l then some (['p', 'u', 't'], l.drop 4)
  else if tryVerb ['d', 'e', 'l', 'e', 't', 'e', '_'] l then
    some (['d', 'e', 'l', 'e', 't', 'e'], l.drop 7)
  else if tryVerb ['p', 'a', 't', 'c', 'h', '_'] l then
    some (['p', 'a', 't', 'c', 'h'], l.drop 6)
  else none

/-- The `verb_mapping` dictionary of `sanitize_name`. -/
def verb_mapping : List (List Char × List Char) :=
  [(['g', 'e', 't'], ['l', 'i', 's', 't']),
   (['p', 'o', 's', 't'], ['c', 'r', 'e', 'a', 't', 'e']),
   (['p', 'u', 't'], ['r', 'e', 'p', 'l', 'a', 'c', 'e']),
   (['p', 'a', 't', 'c', 'h'], ['u', 'p', 'd', 'a', 't', 'e']),
   (['d', 'e', 'l', 'e', 't', 'e'], ['d', 'e', 'l', 'e', 't', 'e'])]

/-- Step 2 of `sanitize_name`: remap an HTTP verb prefix to a semantic verb
(`get` stays `get` on `_by_` names, becomes `list` otherwise; others via
`verb_mapping`), reassembling `<semantic_verb>_<rest>`. -/
def verbStep (name : List Char) : List Char :=
  match stripVerb name with
  | none => name
  | some (verb, rest) =>
    let semantic :=
      if verb = ['g', 'e', 't'] then
        if containsB ['_', 'b', 'y', '_'] name then ['g', 'e', 't'] else ['l', 'i', 's', 't']
      else (verb_mapping.lookup verb).getD verb
    semantic ++ '_' :: rest

/-- The camelCase boundary pass `re.sub(r'([a-z0-9])([A-Z])', r'\1_\2', name)`:
insert an underscore between a lower-case-or-digit character and an
upper-case character, consuming both (non-overlapping leftmost matches). -/
def camelSub : List Char → List Char
  | [] => []
  | [a] => [a]
  | a :: b :: rest =>
    if isLowerDigitB a && isUpperB b then a :: '_' :: b :: camelSub rest
    else a :: camelSub (b :: rest)

/-- Steps 2–3 of `sanitize_name`: verb remapping, camelCase split, lower-casing. -/
def normalizeChars (name : List Char) : List Char := asciiLowerList (camelSub (verbStep name))

/-- The abbreviation loop of `sanitize_name` step 3: apply each table entry in
order via `str.replace`, stopping as soon as the name fits the limit. -/
def applyAbbrevs : List (String × String) → List Char → List Char
  | [], n => n
  | (lf, sf) :: rest, n =>
    if (replaceFuel lf.data sf.data n.length n).length ≤ MAX_TOOL_NAME_LENGTH then
      replaceFuel lf.data sf.data n.length n
    else applyAbbrevs rest (replaceFuel lf.data sf.data n.length n)

/-- `utils.sanitize_name`: override lookup, HTTP-verb remapping, camelCase to
snake_case lower-casing, then abbreviation only when over the length limit. -/
def sanitize_name (name : String) : String :=
  match TOOL_NAME_OVERRIDES.lookup name with
  | some t => t
  | none =>
    if MAX_TOOL_NAME_LENGTH < (normalizeChars name.data).length then
      String.mk (applyAbbrevs TOOL_NAME_ABBREVIATIONS (normalizeChars name.data))
    else String.mk (normalizeChars name.data)

/-- `utils.camel_to_snake`. -/
def camel_to_snake (name : String) : String := String.mk (asciiLowerList (camelSub name.data))

/-! ## Security extraction: `models.py` dataclasses and
`introspection.get_security_config` -/

/-- One OAuth2 flow object of the description document (a value of the
scheme's `flows` mapping); keys absent from the Python dict are `none`. -/
structure FlowDef where
  authorizationUrl : Option String := none
  tokenUrl : Option String := none
  refreshUrl : Option String := none
  scopes : Option (List (String × String)) := none
deriving DecidableEq

/-- One entry of `components.securitySchemes`. -/
structure SchemeDef where
  type_ : Option String := none
  scheme : Option String := none
  bearerFormat : Option String := none
  flows : Option (List (String × FlowDef)) := none
deriving DecidableEq

/-- The parts of a parsed description document that `get_security_config`
reads: `components.securitySchemes`, the root `security` list, and the
`x-jwks-uri` / `x-issuer` / `x-audience` vendor extensions. -/
structure ApiDoc where
  securitySchemes : List (String × SchemeDef) := []
  security : List (List (String × List String)) := []
  xJwksUri : Option String := none
  xIssuer : Option String := none
  xAudience : Option String := none
deriving DecidableEq

/-- `models.OAuthFlowConfig`. -/
structure OAuthFlowConfig where
  authorization_url : Option String := none
  token_url : Option String := none
  refresh_url : Option String := none
  scopes : List (String × String) := []
deriving DecidableEq

/-- `models.OAuthConfig`. -/
structure OAuthConfig where
  scheme_name : String
  flows : List (String × OAuthFlowConfig) := []
  all_scopes : List (String × String) := []
deriving DecidableEq

/-- `models.SecurityConfig`. -/
structure SecurityConfig where
  schemes : List (String × SchemeDef) := []
  global_security : List (List (String × List String)) := []
  default_scopes : List String := []
  oauth_config : Option OAuthConfig := none
  bearer_format : Option String := none
  jwks_uri : Option String := none
  issuer : Option String := none
  audience : Option String := none
deriving DecidableEq

/-- `SecurityConfig.has_authentication`: true iff schemes or an OAuth config
exist. -/
def hasAuthentication (c : SecurityConfig) : Bool :=
  !c.schemes.isEmpty || c.oauth_config.isSome

/-- Python `dict` assignment `d[k] = v`: overwrite the value at an existing
key in place, or append a new key at the end. -/
def setKey : List (String × String) → String → String → List (String × String)
  | [], k, v => [(k, v)]
  | (k', v') :: rest, k, v =>
    if k' == k then (k', v) :: rest else (k', v') :: setKey rest k v

/-- Python `dict.update(other)`: assign every key of `other` in order. -/
def dictUpdate (d other : List (String × String)) : List (String × String) :=
  other.foldl (fun acc p => setKey acc p.1 p.2) d

/-- The four flow kinds recognized by `get_security_config`, in loop order. -/
def recognizedFlowTypes : List String :=
  ["authorizationCode", "implicit", "password", "clientCredentials"]

/-- The `OAuthFlowConfig` built from one flow object (`authorizationUrl`,
`tokenUrl`, `refreshUrl`, `scopes` with empty-dict default). -/
def flowOf (fd : FlowDef) : OAuthFlowConfig :=
  { authorization_url := fd.authorizationUrl, token_url := fd.tokenUrl,
    refresh_url := fd.refreshUrl, scopes := fd.scopes.getD [] }

/-- The per-scheme OAuth extraction loop of `get_security_config`: for each
recognized flow kind present in the scheme's `flows` object (in loop order),
record an `OAuthFlowConfig` under that kind and merge the flow's scopes into
`all_scopes` via dict update. -/
def extractOAuthScheme (scheme_name : String) (d : SchemeDef) : OAuthConfig :=
  recognizedFlowTypes.foldl
    (fun cfg ft =>
      match (d.flows.getD []).lookup ft with
      | some fd =>
        { cfg with
          flows := cfg.flows ++ [(ft, flowOf fd)],
          all_scopes := dictUpdate cfg.all_scopes (fd.scopes.getD []) }
      | none => cfg)
    { scheme_name := scheme_name }

/-- One iteration of the scheme loop of `get_security_config`: an `oauth2`
scheme (type compared lower-cased) replaces the OAuth config; otherwise an
`http` scheme with `scheme == "bearer"` records the bearer format (defaulting
to `"JWT"`); every other scheme leaves the state unchanged. -/
def schemeStep (st : Option OAuthConfig × Option String) (p : String × SchemeDef) :
    Option OAuthConfig × Option String :=
  if asciiLowerStr (p.2.type_.getD "") = "oauth2" then
    (some (extractOAuthScheme p.1 p.2), st.2)
  else if asciiLowerStr (p.2.type_.getD "") = "http" ∧ p.2.scheme = some "bearer" then
    (st.1, some (p.2.bearerFormat.getD "JWT"))
  else st

/-- Python `sorted(set(l))` on strings: the distinct values in code-point
order. -/
def sortedSet (l : List String) : List String := sortStrings l.dedup

/-- The scope accumulation of `get_security_config`: all scopes of all
root-level `security` requirement entries, gathered in iteration order. -/
def globalScopesList (doc : ApiDoc) : List String :=
  doc.security.foldl (fun acc req => req.foldl (fun acc2 pr => acc2 ++ pr.2) acc) []

/-- `introspection.get_security_config`, starting from a parsed description
document (the JSON/YAML file-loading wrappers are I/O and out of scope; absent
or unparseable files short-circuit to the same all-default config as an empty
scheme mapping): when schemes exist, the scheme loop extracts OAuth and bearer
configuration, default scopes are the sorted union of root security scopes
with the `backend:read` fallback, and vendor extensions are copied. -/
def get_security_config (doc : ApiDoc) : SecurityConfig :=
  if doc.securitySchemes.isEmpty then {}
  else
    { schemes := doc.securitySchemes
      global_security := doc.security
      default_scopes :=
        if (globalScopesList doc).isEmpty then ["backend:read"]
        else sortedSet (globalScopesList doc)
      oauth_config := (doc.securitySchemes.foldl schemeStep (none, none)).1
      bearer_format := (doc.securitySchemes.foldl schemeStep (none, none)).2
      jwks_uri := doc.xJwksUri
      issuer := doc.xIssuer
      audience := doc.xAudience }

/-- The last scheme of the mapping (in iteration order) whose type is
`oauth2`. -/
def lastOAuth2Scheme (doc : ApiDoc) : Option (String × SchemeDef) :=
  (doc.securitySchemes.filter
    (fun p => asciiLowerStr (p.2.type_.getD "") == "oauth2")).getLast?

/-- Spec-side reading of the default-scope sentence: the union of the scope
lists of all root-level `security` requirement entries, as a sorted set. -/
def specRootScopeUnion (doc : ApiDoc) : List String :=
  sortedSet (doc.security.flatMap (fun req => req.flatMap (fun pr => pr.2)))

/-- The scope dictionaries of the recognized flows present in a scheme, in
recognition order. -/
def presentFlowScopes (d : SchemeDef) : List (List (String × String)) :=
  (recognizedFlowTypes.filterMap (fun ft => (d.flows.getD []).lookup ft)).map
    (fun fd => fd.scopes.getD [])

/-- Spec-side reading of the `all_scopes` union, as a key lookup: the value
for a scope key comes from the last recognized flow declaring it. -/
def specScopeUnionLookup (d : SchemeDef) (k : String) : Option String :=
  ((presentFlowScopes d).flatten.reverse.find? (fun pr => pr.1 == k)).map (·.2)

/-! ## Resource generation: `models.ParameterInfo` / `models.ResourceSpec`
and `renderers.generate_resource_for_endpoint` / `renderers.render_resource` -/

/-- The opening-brace character `{`, written by code point (it marks path
parameters in OpenAPI path templates and RFC 6570 URI templates). -/
def lbrace : Char := Char.ofNat 123

/-- The closing-brace character `}`, written by code point. -/
def rbrace : Char := Char.ofNat 125

/-- `models.ParameterInfo`. For resource parameters `type_hint` holds the
generation-target type name; for tool parameters the declared Python type
enters the rendering only through `is_pydantic` and the model class name, so
the class name stands in for `pydantic_class`. -/
structure ParameterInfo where
  name : String
  type_hint : String
  required : Bool
  description : String
  example_json : Option String := none
  is_pydantic : Bool := false
  pydantic_class : Option String := none
deriving DecidableEq

/-- `models.ResourceSpec`. -/
structure ResourceSpec where
  resource_name : String
  uri_template : String
  method_name : String
  api_var_name : String
  path_params : List String
  query_params : List ParameterInfo
  description : String
  mime_type : String := "application/json"
deriving DecidableEq

/-- One query-parameter dict of a resource endpoint spec, as built by
`introspection.get_resource_endpoints`: `schema_type` is
`param.get("schema", \x7b\x7d).get("type")` (`none` when the schema or its
`type` key is absent). -/
structure QueryParamRaw where
  name : String
  required : Bool
  schema_type : Option String := none
  description : String := ""
deriving DecidableEq

/-- A resource endpoint spec dict (`path`, `operation_id`, `summary`,
`description`, `path_params`, `query_params`) as consumed by
`generate_resource_for_endpoint`. -/
structure ResourceEndpoint where
  path : String
  operation_id : String
  summary : String := ""
  description : String := ""
  path_params : List String := []
  query_params : List QueryParamRaw := []
deriving DecidableEq

/-- The fixed OpenAPI-type to generation-target-type table of
`generate_resource_for_endpoint`, with `str` fallback. -/
def type_map (t : String) : String :=
  if t = "string" then "str"
  else if t = "integer" then "int"
  else if t = "number" then "float"
  else if t = "boolean" then "bool"
  else if t = "array" then "list[str]"
  else "str"

/-- `renderers.generate_resource_for_endpoint`: derive the resource name from
the last non-parameter path segment (or a normalized operation id), reject
endpoints with neither path nor query parameters, build the RFC 6570 URI
template (appending `\x7b?a,b\x7d` for query parameters), and copy each query
parameter into a `ParameterInfo` with its mapped type. -/
def generate_resource_for_endpoint (api_var_name : String) (ep : ResourceEndpoint)
    (method_name : String) : Option ResourceSpec :=
  let path_segments := (splitChar '/' ep.path).filter
    (fun seg => !seg.data.isEmpty && !(seg.data.head? == some lbrace))
  let resource_name :=
    if path_segments.isEmpty then
      asciiLowerStr (replaceStr (replaceStr ep.operation_id "get" "") "_" "-")
    else path_segments.getLastD ""
  let uri_path := String.mk (ep.path.data.dropWhile (fun c => c == '/'))
  if !(!ep.path_params.isEmpty || !ep.query_params.isEmpty) then none
  else
    if !(ep.query_params.map (fun qp => qp.name)).isEmpty then
      some
        { resource_name := resource_name
          uri_template := resource_name ++ "://" ++ uri_path ++ "\x7b?" ++
            joinWith "," (ep.query_params.map (fun qp => qp.name)) ++ "\x7d"
          method_name := method_name
          api_var_name := api_var_name
          path_params := ep.path_params
          query_params := ep.query_params.map (fun qp =>
            { name := qp.name
              type_hint := type_map (qp.schema_type.getD "string")
              required := qp.required
              description := qp.description
              example_json := none
              is_pydantic := false
              pydantic_class := none })
          description := if !ep.summary.data.isEmpty then ep.summary else ep.description
          mime_type := "application/json" }
    else if !ep.path_params.isEmpty then
      some
        { resource_name := resource_name
          uri_template := resource_name ++ "://" ++ uri_path
          method_name := method_name
          api_var_name := api_var_name
          path_params := ep.path_params
          query_params := ep.query_params.map (fun qp =>
            { name := qp.name
              type_hint := type_map (qp.schema_type.getD "string")
              required := qp.required
              description := qp.description
              example_json := none
              is_pydantic := false
              pydantic_class := none })
          description := if !ep.summary.data.isEmpty then ep.summary else ep.description
          mime_type := "application/json" }
    else none

/-- The generated signature entry for one resource query parameter
(`render_resource`): every query parameter is declared optional as
`<name>: <type> | None = <default>`, default `None` for `str`-containing
type hints and `0` otherwise, regardless of the `required` flag. -/
def resourceQueryParamSig (qp : ParameterInfo) : String :=
  qp.name ++ ": " ++ qp.type_hint ++ " | None = " ++
    (if containsS qp.type_hint "str" then "None" else "0")

/-- The generated function parameter list of `render_resource`: the context
parameter, the path parameters as required `str`s, then every query parameter
as an optional defaulted parameter. -/
def renderResourceFuncParams (spec : ResourceSpec) : List String :=
  "ctx: Context" :: (spec.path_params.map (fun p => p ++ ": str") ++
    spec.query_params.map resourceQueryParamSig)

/-- The call-argument list of the rendered resource body. -/
def renderResourceCallArgs (spec : ResourceSpec) : String :=
  joinWith ", " (spec.path_params.map (fun p => p ++ "=" ++ p) ++
    spec.query_params.map (fun qp => qp.name ++ "=" ++ qp.name))

/-- The parameter table of the rendered resource docstring. -/
def resourceParamDocs (spec : ResourceSpec) : String :=
  let base := joinWith "\n    " (spec.path_params.map (fun p => p ++ ": Path parameter"))
  if !spec.query_params.isEmpty then
    base ++ "\n    " ++ joinWith "\n    " (spec.query_params.map (fun qp =>
      qp.name ++ ": " ++
        (if !qp.description.data.isEmpty then qp.description else "Query parameter")))
  else base

/-- The docstring of the rendered resource function. -/
def resourceDocstring (spec : ResourceSpec) : String :=
  spec.description ++ "\n\n    Parameters:\n        " ++ resourceParamDocs spec ++
    "\n\n    URI: " ++ spec.uri_template ++ "\n    "

/-- `renderers.render_resource`: the full generated resource-template source
text (decorator, signature, docstring, authenticated-client retrieval, the
underlying call, JSON serialization of the response, error logging). -/
def render_resource (spec : ResourceSpec) : String :=
  "\n@mcp.resource(\"" ++ spec.uri_template ++ "\")\nasync def " ++ spec.resource_name ++
    "_resource(" ++ joinWith ", " (renderResourceFuncParams spec) ++ ") -> str:\n    \"\"\"\n" ++
    resourceDocstring spec ++ "\n    \"\"\"\n    try:\n" ++
    "        # Get authenticated API client from context state\n" ++
    "        openapi_client = ctx.get_state('openapi_client')\n" ++
    "        if not openapi_client:\n" ++
    "            raise Exception(\"API client not available. Authentication middleware may not be configured.\")\n\n" ++
    "        apis = _get_api_instances(openapi_client)\n" ++
    "        " ++ spec.api_var_name ++ " = apis['" ++ spec.api_var_name ++ "']\n\n" ++
    "        # Call API method\n" ++
    "        response = " ++ spec.api_var_name ++ "." ++ spec.method_name ++ "(" ++
    renderResourceCallArgs spec ++ ")\n\n" ++
    "        # Convert response to JSON string\n" ++
    "        if response is None:\n" ++
    "            result = \"\x7b\x7d\"\n" ++
    "        elif hasattr(response, 'to_dict') and callable(response.to_dict):\n" ++
    "            import json\n" ++
    "            result = json.dumps(response.to_dict(), indent=2)\n" ++
    "        elif isinstance(response, (dict, list)):\n" ++
    "            import json\n" ++
    "            result = json.dumps(response, indent=2)\n" ++
    "        else:\n" ++
    "            result = str(response)\n\n" ++
    "        return result\n\n" ++
    "    except Exception as e:\n" ++
    "        await ctx.error(f\"Error in " ++ spec.resource_name ++
    "_resource: \x7bstr(e)\x7d\")\n        raise\n"


theorem lookup_mem {α β : Type} [BEq α] [LawfulBEq α] {l : List (α × β)} {k : α} {v : β}
    (h : l.lookup k = some v) : (k, v) ∈ l := by
  induction l with
  | nil => simp [List.lookup] at h
  | cons p rest ih =>
    rw [List.lookup] at h
    rcases p with ⟨k', v'⟩
    by_cases hk : k == k'
    · simp only [hk] at h
      have hkk : k = k' := by simpa using hk
      cases h
      simp [hkk]
    · simp only [Bool.not_eq_true] at hk
      simp only [hk] at h
      exact List.mem_cons_of_mem _ (ih h)

theorem lowerPairs_snd_none : ∀ p ∈ lowerPairs, lowerPairs.lookup p.2 = none := by decide

theorem isUpperB_asciiLowerChar (c : Char) : isUpperB (asciiLowerChar c) = false := by
  unfold asciiLowerChar isUpperB
  cases h : lowerPairs.lookup c with
  | none => simp [h]
  | some v =>
    have hv := lowerPairs_snd_none (c, v) (lookup_mem h)
    simp [h, hv]

/-- Predicate: *the character list has no characters in the class `[A-Z]`*. -/
abbrev NoUpper (l : List Char) : Prop := ∀ c ∈ l, isUpperB c = false

theorem noUpper_asciiLowerList (l : List Char) : NoUpper (asciiLowerList l) := by
  intro c hc
  rcases List.mem_map.1 hc with ⟨a, _, rfl⟩
  exact isUpperB_asciiLowerChar a

theorem asciiLowerChar_id {c : Char} (h : isUpperB c = false) : asciiLowerChar c = c := by
  unfold isUpperB at h
  unfold asciiLowerChar
  cases hl : lowerPairs.lookup c with
  | none => rfl
  | some v => rw [hl] at h; simp at h

theorem asciiLowerList_id {l : List Char} (h : NoUpper l) : asciiLowerList l = l := by
  unfold asciiLowerList
  induction l with
  | nil => rfl
  | cons c rest ih =>
    have h1 : isUpperB c = false := h c (by simp)
    have h2 : NoUpper rest := fun x hx => h x (List.mem_cons_of_mem _ hx)
    simp [asciiLowerChar_id h1, ih h2]

theorem camelSub_id {l : List Char} (h : NoUpper l) : camelSub l = l := by
  induction l using camelSub.induct with
  | case1 => rfl
  | case2 a => rfl
  | case3 a b rest hcond ih =>
    exfalso
    have hb : isUpperB b = false := h b (by simp)
    rw [hb] at hcond
    simp at hcond
  | case4 a b rest hcond ih =>
    have h2 : NoUpper (b :: rest) := fun x hx => h x (List.mem_cons_of_mem _ hx)
    rw [camelSub, if_neg hcond, ih h2]

theorem eq_append_of_isPrefixOfB :
    ∀ {p l : List Char}, isPrefixOfB p l = true → l = p ++ l.drop p.length := by
  intro p
  induction p with
  | nil => intro l _; simp
  | cons a as ih =>
    intro l h
    cases l with
    | nil => simp [isPrefixOfB] at h
    | cons b bs =>
      rw [isPrefixOfB, Bool.and_eq_true] at h
      have hab : a = b := by simpa using h.1
      have := ih h.2
      simp only [List.length_cons, List.drop_succ_cons, List.cons_append]
      rw [hab]
      exact congrArg (b :: ·) this

theorem tryVerb_decomp {v l : List Char} (h : tryVerb v l = true) :
    l = v ++ l.drop v.length := by
  rw [tryVerb, Bool.and_eq_true] at h
  exact eq_append_of_isPrefixOfB h.1

/-- The five possible outcomes of the verb-remapping step: either the name is
returned unchanged (no verb prefix, a `get ... _by_` name, or a `delete`
name), or the prefix is rewritten to `list`, `create`, `replace` or `update`. -/
theorem verbStep_shape (l : List Char) :
    verbStep l = l
  ∨ verbStep l = 'l' :: 'i' :: 's' :: 't' :: '_' :: l.drop 4
  ∨ verbStep l = 'c' :: 'r' :: 'e' :: 'a' :: 't' :: 'e' :: '_' :: l.drop 5
  ∨ verbStep l = 'r' :: 'e' :: 'p' :: 'l' :: 'a' :: 'c' :: 'e' :: '_' :: l.drop 4
  ∨ verbStep l = 'u' :: 'p' :: 'd' :: 'a' :: 't' :: 'e' :: '_' :: l.drop 6 := by
  cases hg : tryVerb ['g', 'e', 't', '_'] l with
  | true =>
    have hs : stripVerb l = some (['g', 'e', 't'], l.drop 4) := by
      unfold stripVerb; rw [if_pos hg]
    cases hby : containsB ['_', 'b', 'y', '_'] l with
    | true =>
      left
      unfold verbStep
      rw [hs]
      simp only [reduceIte, hby]
      exact (tryVerb_decomp hg).symm
    | false =>
      right; left
      unfold verbStep
      rw [hs]
      simp [hby]
  | false =>
    cases hpo : tryVerb ['p', 'o', 's', 't', '_'] l with
    | true =>
      have hs : stripVerb l = some (['p', 'o', 's', 't'], l.drop 5) := by
        unfold stripVerb; rw [if_neg (by simp [hg]), if_pos hpo]
      right; right; left
      unfold verbStep
      rw [hs]
      rfl
    | false =>
      cases hpu : tryVerb ['p', 'u', 't', '_'] l with
      | true =>
        have hs : stripVerb l = some (['p', 'u', 't'], l.drop 4) := by
          unfold stripVerb
          rw [if_neg (by simp [hg]), if_neg (by simp [hpo]), if_pos hpu]
        right; right; right; left
        unfold verbStep
        rw [hs]
        rfl
      | false =>
        cases hd : tryVerb ['d', 'e', 'l', 'e', 't', 'e', '_'] l with
        | true =>
          have hs : stripVerb l = some (['d', 'e', 'l', 'e', 't', 'e'], l.drop 7) := by
            unfold stripVerb
            rw [if_neg (by simp [hg]), if_neg (by simp [hpo]), if_neg (by simp [hpu]),
              if_pos hd]
          left
          unfold verbStep
          rw [hs]
          simp only [reduceIte]
          exact (tryVerb_decomp hd).symm
        | false =>
          cases hpa : tryVerb ['p', 'a', 't', 'c', 'h', '_'] l with
          | true =>
            have hs : stripVerb l = some (['p', 'a', 't', 'c', 'h'], l.drop 6) := by
              unfold stripVerb
              rw [if_neg (by simp [hg]), if_neg (by simp [hpo]), if_neg (by simp [hpu]),
                if_neg (by simp [hd]), if_pos hpa]
            right; right; right; right
            unfold verbStep
            rw [hs]
            rfl
          | false =>
            have hs : stripVerb l = none := by
              unfold stripVerb
              rw [if_neg (by simp [hg]), if_neg (by simp [hpo]), if_neg (by simp [hpu]),
                if_neg (by simp [hd]), if_neg (by simp [hpa])]
            left
            unfold verbStep
            rw [hs]

theorem verbStep_idem (l : List Char) : verbStep (verbStep l) = verbStep l := by
  rcases verbStep_shape l with h | h | h | h | h <;> rw [h]
  · rw [h]
  · rfl
  · rfl
  · rfl
  · rfl

theorem noUpper_cons {c : Char} {l : List Char} (hc : isUpperB c = false) (h : NoUpper l) :
    NoUpper (c :: l) := by
  intro x hx
  rcases List.mem_cons.1 hx with rfl | hx
  · exact hc
  · exact h x hx

theorem verbStep_noUpper {l : List Char} (h : NoUpper l) : NoUpper (verbStep l) := by
  have hdrop : ∀ n : Nat, NoUpper (l.drop n) := fun n c hc => h c (List.drop_subset n l hc)
  rcases verbStep_shape l with hsh | hsh | hsh | hsh | hsh <;> rw [hsh]
  · exact h
  · exact noUpper_cons (by decide) (noUpper_cons (by decide) (noUpper_cons (by decide)
      (noUpper_cons (by decide) (noUpper_cons (by decide) (hdrop 4)))))
  · exact noUpper_cons (by decide) (noUpper_cons (by decide) (noUpper_cons (by decide)
      (noUpper_cons (by decide) (noUpper_cons (by decide) (noUpper_cons (by decide)
      (noUpper_cons (by decide) (hdrop 5)))))))
  · exact noUpper_cons (by decide) (noUpper_cons (by decide) (noUpper_cons (by decide)
      (noUpper_cons (by decide) (noUpper_cons (by decide) (noUpper_cons (by decide)
      (noUpper_cons (by decide) (noUpper_cons (by decide) (hdrop 4))))))))
  · exact noUpper_cons (by decide) (noUpper_cons (by decide) (noUpper_cons (by decide)
      (noUpper_cons (by decide) (noUpper_cons (by decide) (noUpper_cons (by decide)
      (noUpper_cons (by decide) (hdrop 6)))))))

theorem noUpper_normalizeChars (l : List Char) : NoUpper (normalizeChars l) :=
  noUpper_asciiLowerList _

theorem normalizeChars_of_noUpper {l : List Char} (h : NoUpper l) :
    normalizeChars l = verbStep l := by
  unfold normalizeChars
  rw [camelSub_id (verbStep_noUpper h), asciiLowerList_id (verbStep_noUpper h)]

theorem sanitize_name_eq_normalize (x : String) :
    sanitize_name x = String.mk (normalizeChars x.data) := by
  unfold sanitize_name
  split
  · rename_i t heq
    simp [TOOL_NAME_OVERRIDES, List.lookup] at heq
  · split <;> rfl

theorem applyAbbrevs_shape (table : List (String × String)) (n : List Char) :
    (applyAbbrevs table n).length ≤ MAX_TOOL_NAME_LENGTH ∨
    applyAbbrevs table n =
      table.foldl (fun m p => replaceFuel p.1.data p.2.data m.length m) n := by
  induction table generalizing n with
  | nil => right; rfl
  | cons p rest ih =>
    rcases p with ⟨lf, sf⟩
    rw [applyAbbrevs]
    split
    · left; assumption
    · rcases ih (replaceFuel lf.data sf.data n.length n) with h | h
      · left; exact h
      · right; rw [h]; rfl

/-- C1 (counterexample): `sanitize_name` is not idempotent as claimed: on the
input `"getPets"` the first application produces `"get_pets"` (the camelCase
pass runs after the verb check, so the verb prefix is not yet visible), and a
second application then remaps the now-exposed `get_` prefix to `"list_pets"`. -/
theorem C1_sanitize_name_not_idempotent_cex :
    sanitize_name "getPets" = "get_pets" ∧
    sanitize_name (sanitize_name "getPets") = "list_pets" ∧
    sanitize_name (sanitize_name "getPets") ≠ sanitize_name "getPets" := by
  refine ⟨by decide, by decide, by decide⟩

/-- C1 (amended): `sanitize_name` is not idempotent on all inputs, but a double
application always reaches a fixed point: applying the function a third time
changes nothing, so every name produced by two applications passes through
unchanged (and on names without upper-case characters — in particular on any
output of `sanitize_name` applied twice — the function is idempotent). -/
theorem C1_sanitize_name_double_application_stable (x : String) :
    sanitize_name (sanitize_name (sanitize_name x)) = sanitize_name (sanitize_name x) := by
  rw [sanitize_name_eq_normalize x]
  have hyU : NoUpper (normalizeChars x.data) := noUpper_normalizeChars _
  have h2 : sanitize_name (String.mk (normalizeChars x.data)) =
      String.mk (verbStep (normalizeChars x.data)) := by
    rw [sanitize_name_eq_normalize]
    exact congrArg String.mk (normalizeChars_of_noUpper hyU)
  rw [h2]
  have hvU : NoUpper (verbStep (normalizeChars x.data)) := verbStep_noUpper hyU
  have h3 : sanitize_name (String.mk (verbStep (normalizeChars x.data))) =
      String.mk (verbStep (verbStep (normalizeChars x.data))) := by
    rw [sanitize_name_eq_normalize]
    exact congrArg String.mk (normalizeChars_of_noUpper hvU)
  rw [h3, verbStep_idem]

/-- C4: `sanitize_name` is a total function (it is a Lean `def`, hence never
raises); the abbreviation loop applies the table entries in order and stops
as soon as the length bound is met, otherwise every entry is applied; with
the repository's shipped (empty) abbreviation table the loop is the identity,
so an over-length normalized name is returned unchanged and the result can
exceed 64 characters, as witnessed by a 70-character name. -/
theorem C4_sanitize_name_length_behavior :
    (∀ (table : List (String × String)) (n : List Char),
        (applyAbbrevs table n).length ≤ MAX_TOOL_NAME_LENGTH ∨
        applyAbbrevs table n =
          table.foldl (fun m p => replaceFuel p.1.data p.2.data m.length m) n) ∧
    (∀ n : List Char, applyAbbrevs TOOL_NAME_ABBREVIATIONS n = n) ∧
    (∀ x : String, sanitize_name x = String.mk (normalizeChars x.data)) ∧
    sanitize_name "an_extremely_long_operation_name_that_certainly_exceeds_the_limit_here" =
      "an_extremely_long_operation_name_that_certainly_exceeds_the_limit_here" ∧
    MAX_TOOL_NAME_LENGTH <
      (sanitize_name
        "an_extremely_long_operation_name_that_certainly_exceeds_the_limit_here").length := by
  exact ⟨applyAbbrevs_shape, fun n => rfl, sanitize_name_eq_normalize, by decide, by decide⟩



-- C2 chain ---------------------------------------------------------------

theorem foldl_append_flatMap {α β : Type} (l : List α) (f : α → List β) (acc : List β) :
    l.foldl (fun a x => a ++ f x) acc = acc ++ l.flatMap f := by
  induction l generalizing acc with
  | nil => simp
  | cons x rest ih => simp [ih, List.append_assoc]

theorem globalScopesList_eq (doc : ApiDoc) :
    globalScopesList doc = doc.security.flatMap (fun req => req.flatMap (fun pr => pr.2)) := by
  unfold globalScopesList
  have hfn : (fun (acc : List String) (req : List (String × List String)) =>
      req.foldl (fun acc2 pr => acc2 ++ pr.2) acc) =
      fun acc req => acc ++ req.flatMap (fun pr => pr.2) := by
    funext acc req
    exact foldl_append_flatMap req _ acc
  rw [hfn, foldl_append_flatMap]
  simp

theorem insertStr_length (x : String) (l : List String) :
    (insertStr x l).length = l.length + 1 := by
  induction l with
  | nil => rfl
  | cons y rest ih =>
    rw [insertStr]
    split
    · simp
    · simp [ih]

theorem sortStrings_length (l : List String) : (sortStrings l).length = l.length := by
  induction l with
  | nil => rfl
  | cons x rest ih => rw [sortStrings, insertStr_length, ih]; rfl

theorem sortedSet_eq_nil {l : List String} : sortedSet l = [] ↔ l = [] := by
  unfold sortedSet
  constructor
  · intro h
    have := sortStrings_length l.dedup
    rw [h] at this
    have hd : l.dedup = [] := List.length_eq_zero.1 this.symm
    exact (List.dedup_eq_nil l).1 hd
  · intro h
    subst h
    rfl

theorem isEmpty_eq_false_of_ne_nil {α : Type} {l : List α} (h : l ≠ []) :
    l.isEmpty = false := by
  cases l with
  | nil => exact absurd rfl h
  | cons a rest => rfl

def c2CexDoc : ApiDoc :=
  { securitySchemes := [], security := [[("oauth", ["read:all"])]] }

/-- C2 (counterexample): a parseable document that declares root-level security
scopes but has an empty `components.securitySchemes` mapping short-circuits to
the all-default `SecurityConfig`, whose `default_scopes` is the empty list —
not the union `["read:all"]` and not the fallback — so `default_scopes` can be
empty, contradicting the claim. -/
theorem C2_default_scopes_cex :
    (get_security_config c2CexDoc).default_scopes = [] ∧
    specRootScopeUnion c2CexDoc = ["read:all"] := by
  exact ⟨by decide, by decide⟩

/-- C2 (amended): for every parseable document with at least one declared
security scheme, `default_scopes` equals the sorted union of the scope lists
of all root-level security requirement entries, or the single fallback scope
`backend:read` when no such scopes are declared; in particular it is then
never empty. (With no declared schemes the extractor returns the all-default
config with empty `default_scopes`.) -/
theorem C2_default_scopes_amended (doc : ApiDoc) (h : doc.securitySchemes ≠ []) :
    (get_security_config doc).default_scopes =
      (if specRootScopeUnion doc = [] then ["backend:read"] else specRootScopeUnion doc) ∧
    (get_security_config doc).default_scopes ≠ [] := by
  have hne : doc.securitySchemes.isEmpty = false := isEmpty_eq_false_of_ne_nil h
  unfold get_security_config
  rw [hne]
  simp only [Bool.false_eq_true, if_false]
  by_cases hu : globalScopesList doc = []
  · have hb : doc.security.flatMap (fun req => req.flatMap (fun pr => pr.2)) = [] := by
      rw [← globalScopesList_eq]; exact hu
    have hs : specRootScopeUnion doc = [] := by
      unfold specRootScopeUnion
      rw [hb]
      rfl
    simp [hu, hs]
  · have hb : doc.security.flatMap (fun req => req.flatMap (fun pr => pr.2)) ≠ [] := by
      rw [← globalScopesList_eq]; exact hu
    have hs : specRootScopeUnion doc ≠ [] := fun hc => hb (sortedSet_eq_nil.1 hc)
    have hieq : (globalScopesList doc).isEmpty = false := isEmpty_eq_false_of_ne_nil hu
    rw [hieq]
    simp only [Bool.false_eq_true, if_false, if_neg hs]
    have heq : sortedSet (globalScopesList doc) = specRootScopeUnion doc := by
      unfold specRootScopeUnion
      rw [globalScopesList_eq]
    rw [heq]
    exact ⟨rfl, hs⟩

def c2WitnessDoc : ApiDoc :=
  { securitySchemes := [("bearerAuth", { type_ := some "http", scheme := some "bearer" })],
    security := [[("bearerAuth", ["b:read", "a:write"])], [("other", ["b:read"])]] }

theorem C2_default_scopes_amended_witness :
    (get_security_config c2WitnessDoc).default_scopes =
      (if specRootScopeUnion c2WitnessDoc = [] then ["backend:read"]
       else specRootScopeUnion c2WitnessDoc) ∧
    (get_security_config c2WitnessDoc).default_scopes ≠ [] :=
  C2_default_scopes_amended c2WitnessDoc (by decide)


-- C5 / C10 chain ----------------------------------------------------------

theorem beq_comm_str (a b : String) : (a == b) = (b == a) := by
  by_cases h : a = b
  · subst h; rfl
  · have h' : b ≠ a := fun hc => h hc.symm
    simp [h, h']

theorem lookup_setKey (d : List (String × String)) (k v k' : String) :
    (setKey d k v).lookup k' = if k' == k then some v else d.lookup k' := by
  induction d with
  | nil =>
    rw [setKey]
    by_cases h : k' == k
    · simp [List.lookup, h]
    · simp only [Bool.not_eq_true] at h
      simp [List.lookup, h]
  | cons p rest ih =>
    rcases p with ⟨a, b⟩
    rw [setKey]
    by_cases ha : a == k
    · have hak : a = k := by simpa using ha
      subst hak
      rw [if_pos ha]
      by_cases hk : k' == a
      · simp [List.lookup, hk]
      · simp only [Bool.not_eq_true] at hk
        simp [List.lookup, hk]
    · simp only [Bool.not_eq_true] at ha
      rw [if_neg (by simp [ha] : ¬(a == k) = true)]
      by_cases hk : k' == a
      · have h1 : k' = a := by simpa using hk
        subst h1
        have h2 : ¬(k' == k) = true := by
          simp only [beq_iff_eq]
          intro hc
          subst hc
          simp at ha
        simp only [Bool.not_eq_true] at h2
        simp [List.lookup, h2]
      · simp only [Bool.not_eq_true] at hk
        simp [List.lookup, hk, ih]

theorem map_or {α β : Type} (a b : Option α) (g : α → β) :
    (a.or b).map g = (a.map g).or (b.map g) := by
  cases a <;> rfl

theorem lookup_foldl_setKey (l : List (String × String)) (d : List (String × String))
    (k : String) :
    ((l.foldl (fun acc p => setKey acc p.1 p.2) d).lookup k) =
      ((l.reverse.find? (fun pr => pr.1 == k)).map (·.2)).or (d.lookup k) := by
  induction l generalizing d with
  | nil => simp
  | cons p rest ih =>
    rcases p with ⟨pk, pv⟩
    rw [List.foldl_cons, ih, List.reverse_cons, List.find?_append, map_or, Option.or_assoc]
    congr 1
    rw [lookup_setKey]
    by_cases h : pk == k
    · have h1 : k == pk := by rw [beq_comm_str]; exact h
      simp [List.find?, h, h1]
    · simp only [Bool.not_eq_true] at h
      have h1 : (k == pk) = false := by rw [beq_comm_str]; exact h
      simp [List.find?, h, h1]

theorem foldl_dictUpdate_flatten (maps : List (List (String × String)))
    (d : List (String × String)) :
    maps.foldl dictUpdate d =
      maps.flatten.foldl (fun acc p => setKey acc p.1 p.2) d := by
  induction maps generalizing d with
  | nil => rfl
  | cons m rest ih => rw [List.foldl_cons, ih, List.flatten_cons, List.foldl_append]; rfl

theorem map_fst_filterMap_pairs {α β γ : Type} (l : List α) (g : α → Option β)
    (f : α → β → γ) :
    (l.filterMap (fun a => (g a).map (fun b => (a, f a b)))).map Prod.fst =
      l.filter (fun a => (g a).isSome) := by
  induction l with
  | nil => rfl
  | cons a rest ih =>
    cases h : g a with
    | none => simp [List.filterMap_cons, List.filter_cons, h, ih]
    | some b => simp [List.filterMap_cons, List.filter_cons, h, ih]

theorem extract_fold (d : SchemeDef) (fts : List String) (cfg : OAuthConfig) :
    (fts.foldl
      (fun cfg ft =>
        match (d.flows.getD []).lookup ft with
        | some fd =>
          { cfg with
            flows := cfg.flows ++ [(ft, flowOf fd)],
            all_scopes := dictUpdate cfg.all_scopes (fd.scopes.getD []) }
        | none => cfg)
      cfg).flows =
      cfg.flows ++ (fts.filterMap
        (fun ft => ((d.flows.getD []).lookup ft).map (fun fd => (ft, flowOf fd)))) ∧
    (fts.foldl
      (fun cfg ft =>
        match (d.flows.getD []).lookup ft with
        | some fd =>
          { cfg with
            flows := cfg.flows ++ [(ft, flowOf fd)],
            all_scopes := dictUpdate cfg.all_scopes (fd.scopes.getD []) }
        | none => cfg)
      cfg).all_scopes =
      ((fts.filterMap (fun ft => (d.flows.getD []).lookup ft)).map
        (fun fd => fd.scopes.getD [])).foldl dictUpdate cfg.all_scopes := by
  induction fts generalizing cfg with
  | nil => simp
  | cons ft rest ih =>
    cases h : (d.flows.getD []).lookup ft with
    | none =>
      rw [List.foldl_cons]
      simp only [h]
      rcases ih cfg with ⟨h1, h2⟩
      constructor
      · rw [h1, List.filterMap_cons, h]
        simp
      · rw [h2, List.filterMap_cons, h]
    | some fd =>
      rw [List.foldl_cons]
      simp only [h]
      rcases ih { cfg with
        flows := cfg.flows ++ [(ft, flowOf fd)],
        all_scopes := dictUpdate cfg.all_scopes (fd.scopes.getD []) } with ⟨h1, h2⟩
      constructor
      · rw [h1, List.filterMap_cons, h]
        simp [List.append_assoc]
      · rw [h2, List.filterMap_cons, h]
        simp

theorem extractOAuthScheme_flows_keys (name : String) (d : SchemeDef) :
    (extractOAuthScheme name d).flows.map Prod.fst =
      recognizedFlowTypes.filter (fun ft => ((d.flows.getD []).lookup ft).isSome) := by
  unfold extractOAuthScheme
  rw [(extract_fold d recognizedFlowTypes { scheme_name := name }).1]
  simp only [List.nil_append]
  exact map_fst_filterMap_pairs recognizedFlowTypes _ (fun ft fd => flowOf fd)

theorem extractOAuthScheme_all_scopes_lookup (name : String) (d : SchemeDef) (k : String) :
    (extractOAuthScheme name d).all_scopes.lookup k = specScopeUnionLookup d k := by
  unfold extractOAuthScheme
  rw [(extract_fold d recognizedFlowTypes { scheme_name := name }).2]
  show (List.foldl dictUpdate [] (presentFlowScopes d)).lookup k = _
  rw [foldl_dictUpdate_flatten, lookup_foldl_setKey]
  unfold specScopeUnionLookup
  simp [List.lookup]

-- the scheme loop: last oauth2 scheme wins -------------------------------

theorem schemeLoop_oauth (l : List (String × SchemeDef))
    (st : Option OAuthConfig × Option String) :
    (l.foldl schemeStep st).1 =
      match (l.filter
          (fun p => asciiLowerStr (p.2.type_.getD "") == "oauth2")).getLast? with
      | some p => some (extractOAuthScheme p.1 p.2)
      | none => st.1 := by
  induction l using List.reverseRecOn with
  | nil => rfl
  | append_singleton l' p ih =>
    rw [List.foldl_append, List.foldl_cons, List.foldl_nil]
    by_cases hc : asciiLowerStr (p.2.type_.getD "") = "oauth2"
    · have hcb : (asciiLowerStr (p.2.type_.getD "") == "oauth2") = true := by
        simpa using hc
      have hfilter :
          (l' ++ [p]).filter (fun q => asciiLowerStr (q.2.type_.getD "") == "oauth2") =
            l'.filter (fun q => asciiLowerStr (q.2.type_.getD "") == "oauth2") ++ [p] := by
        rw [List.filter_append, List.filter_cons, hcb]
        simp
      rw [hfilter, List.getLast?_concat]
      show (schemeStep (l'.foldl schemeStep st) p).1 = some (extractOAuthScheme p.1 p.2)
      unfold schemeStep
      rw [if_pos hc]
    · have hcb : (asciiLowerStr (p.2.type_.getD "") == "oauth2") = false := by
        simpa using hc
      have hfilter :
          (l' ++ [p]).filter (fun q => asciiLowerStr (q.2.type_.getD "") == "oauth2") =
            l'.filter (fun q => asciiLowerStr (q.2.type_.getD "") == "oauth2") := by
        rw [List.filter_append, List.filter_cons, hcb]
        simp
      have hfst : (schemeStep (l'.foldl schemeStep st) p).1 = (l'.foldl schemeStep st).1 := by
        unfold schemeStep
        rw [if_neg hc]
        split
        · rfl
        · rfl
      rw [hfilter, hfst, ih]

-- C10 --------------------------------------------------------------------

def c10FirstScheme : SchemeDef :=
  { type_ := some "oauth2",
    flows := some [("implicit",
      { authorizationUrl := some "https://first/auth",
        scopes := some [("alpha", "First scope")] })] }

def c10SecondScheme : SchemeDef :=
  { type_ := some "oauth2",
    flows := some [("password",
      { tokenUrl := some "https://second/token",
        scopes := some [("beta", "Second scope")] })] }

def c10Doc : ApiDoc :=
  { securitySchemes := [("oauth1", c10FirstScheme), ("oauth2scheme", c10SecondScheme)] }

/-- C10: when the description document declares several `oauth2` security
schemes, `SecurityConfig.oauth_config` is exactly the extraction of the *last*
`oauth2` scheme in the mapping's iteration order — every earlier scheme's
flows and scopes are overwritten, not merged — as the general characterization
and a concrete two-scheme document show. -/
theorem C10_last_oauth2_scheme_wins :
    (∀ doc : ApiDoc,
        (get_security_config doc).oauth_config =
          (lastOAuth2Scheme doc).map (fun p => extractOAuthScheme p.1 p.2)) ∧
    (get_security_config c10Doc).oauth_config =
        some (extractOAuthScheme "oauth2scheme" c10SecondScheme) ∧
    (extractOAuthScheme "oauth2scheme" c10SecondScheme).all_scopes =
        [("beta", "Second scope")] ∧
    (get_security_config c10Doc).oauth_config ≠
        some (extractOAuthScheme "oauth1" c10FirstScheme) := by
  refine ⟨?_, by decide, by decide, by decide⟩
  intro doc
  unfold get_security_config
  by_cases h : doc.securitySchemes.isEmpty
  · rw [if_pos h]
    have hnil : doc.securitySchemes = [] := by
      cases hd : doc.securitySchemes
      · rfl
      · rw [hd] at h; simp [List.isEmpty] at h
    unfold lastOAuth2Scheme
    rw [hnil]
    rfl
  · rw [if_neg h]
    show (doc.securitySchemes.foldl schemeStep (none, none)).1 = _
    rw [schemeLoop_oauth]
    unfold lastOAuth2Scheme
    cases (doc.securitySchemes.filter
        (fun p => asciiLowerStr (p.2.type_.getD "") == "oauth2")).getLast? with
    | none => rfl
    | some p => rfl

-- C5 ---------------------------------------------------------------------

def c5SchemeDef : SchemeDef :=
  { type_ := some "oauth2",
    flows := some
      [("authorizationCode",
        { authorizationUrl := some "https://example/auth",
          tokenUrl := some "https://example/token",
          scopes := some [("read", "Read access")] }),
       ("clientCredentials",
        { tokenUrl := some "https://example/token",
          scopes := some [("write", "Write access")] })] }

def c5Doc : ApiDoc := { securitySchemes := [("oauth", c5SchemeDef)] }

/-- C5: the OAuth extraction of a scheme records exactly those of the four
recognized flow kinds that are present as keys of the scheme's `flows` object,
and `all_scopes` is the union of the present flows' scope dictionaries (the
value of a scope key coming from the last flow declaring it); any `oauth_config`
produced by `get_security_config` is such an extraction of one of the
document's `oauth2` schemes. The claim's example — `authorizationCode` with
scopes `{read}` plus `clientCredentials` with scopes `{write}` — yields exactly
those two flow keys and `all_scopes = {read, write}`. -/
theorem C5_oauth_flows_and_scopes :
    (∀ (name : String) (d : SchemeDef),
        (extractOAuthScheme name d).flows.map Prod.fst =
          recognizedFlowTypes.filter (fun ft => ((d.flows.getD []).lookup ft).isSome)) ∧
    (∀ (name : String) (d : SchemeDef) (k : String),
        (extractOAuthScheme name d).all_scopes.lookup k = specScopeUnionLookup d k) ∧
    (∀ (doc : ApiDoc) (cfg : OAuthConfig),
        (get_security_config doc).oauth_config = some cfg →
        ∃ p ∈ doc.securitySchemes,
          asciiLowerStr (p.2.type_.getD "") = "oauth2" ∧
          cfg = extractOAuthScheme p.1 p.2) ∧
    (extractOAuthScheme "oauth" c5SchemeDef).flows.map Prod.fst =
        ["authorizationCode", "clientCredentials"] ∧
    (extractOAuthScheme "oauth" c5SchemeDef).all_scopes =
        [("read", "Read access"), ("write", "Write access")] := by
  refine ⟨extractOAuthScheme_flows_keys, extractOAuthScheme_all_scopes_lookup, ?_,
    by decide, by decide⟩
  intro doc cfg h
  by_cases hempty : doc.securitySchemes.isEmpty
  · unfold get_security_config at h
    rw [if_pos hempty] at h
    exact absurd h (by simp)
  · unfold get_security_config at h
    rw [if_neg hempty] at h
    have h1 : (doc.securitySchemes.foldl schemeStep (none, none)).1 = some cfg := h
    rw [schemeLoop_oauth] at h1
    cases hlast : (doc.securitySchemes.filter
        (fun p => asciiLowerStr (p.2.type_.getD "") == "oauth2")).getLast? with
    | none => rw [hlast] at h1; exact absurd h1 (by simp)
    | some p =>
      rw [hlast] at h1
      have hcfg : cfg = extractOAuthScheme p.1 p.2 := by
        injection h1 with h2
        exact h2.symm
      have hpmem : p ∈ doc.securitySchemes.filter
          (fun q => asciiLowerStr (q.2.type_.getD "") == "oauth2") :=
        List.mem_of_getLast?_eq_some hlast
      have hmem := List.mem_of_mem_filter hpmem
      have hprop := List.of_mem_filter hpmem
      exact ⟨p, hmem, by simpa using hprop, hcfg⟩

theorem C5_oauth_flows_and_scopes_witness :
    ∃ p ∈ c5Doc.securitySchemes,
      asciiLowerStr (p.2.type_.getD "") = "oauth2" ∧
      extractOAuthScheme "oauth" c5SchemeDef = extractOAuthScheme p.1 p.2 :=
  C5_oauth_flows_and_scopes.2.2.1 c5Doc (extractOAuthScheme "oauth" c5SchemeDef) (by decide)


-- sanity checks
def c3Endpoint : ResourceEndpoint :=
  { path := "/pets", operation_id := "listPets",
    query_params := [{ name := "limit", required := true, schema_type := some "integer",
                       description := "Max items" }] }

def c3WitnessSpec : ResourceSpec :=
  { resource_name := "pets", uri_template := "pets://pets\x7b?limit\x7d",
    method_name := "list_pets", api_var_name := "pet_api", path_params := [],
    query_params := [{ name := "limit", type_hint := "int", required := true,
                       description := "Max items" }],
    description := "", mime_type := "application/json" }

example : generate_resource_for_endpoint "pet_api" c3Endpoint "list_pets" =
    some c3WitnessSpec := by decide

def healthEndpoint : ResourceEndpoint := { path := "/health", operation_id := "getHealth" }

example : generate_resource_for_endpoint "health_api" healthEndpoint "get_health" = none := by
  decide

example : generate_resource_for_endpoint "pet_api"
    { path := "/pet/\x7bpetId\x7d", operation_id := "getPetById",
      path_params := ["petId"] } "get_pet_by_id" =
    some { resource_name := "pet", uri_template := "pet://pet/\x7bpetId\x7d",
           method_name := "get_pet_by_id", api_var_name := "pet_api",
           path_params := ["petId"], query_params := [], description := "",
           mime_type := "application/json" } := by decide

/-- C6: `generate_resource_for_endpoint` returns `none` exactly when the
endpoint has neither path parameters nor query parameters; in particular a
parameterless `/health` GET endpoint is rejected, and every endpoint with at
least one path or query parameter yields a `ResourceSpec`. -/
theorem C6_resource_requires_params :
    (∀ (api : String) (ep : ResourceEndpoint) (m : String),
        generate_resource_for_endpoint api ep m = none ↔
          (ep.path_params = [] ∧ ep.query_params = [])) ∧
    generate_resource_for_endpoint "health_api" healthEndpoint "get_health" = none := by
  constructor
  · intro api ep m
    unfold generate_resource_for_endpoint
    cases hp : ep.path_params with
    | nil =>
      cases hq : ep.query_params with
      | nil => simp
      | cons q qs => simp
    | cons p ps =>
      cases hq : ep.query_params with
      | nil => simp
      | cons q qs => simp
  · decide

theorem C6_resource_requires_params_witness :
    generate_resource_for_endpoint "health_api" healthEndpoint "get_health" = none :=
  (C6_resource_requires_params.1 "health_api" healthEndpoint "get_health").mpr ⟨rfl, rfl⟩

/-- C3 (counterexample): `ResourceSpec.query_params` does **not** force
`required = false`: for a GET endpoint whose only query parameter is declared
`required: true` in the source document, the built spec's parameter has
`required = true` (the flag is copied verbatim). -/
theorem C3_query_required_cex :
    ((generate_resource_for_endpoint "pet_api" c3Endpoint "list_pets").map
      (fun s => s.query_params.map (fun p => p.required))) = some [true] := by decide

/-- C3 (amended): resource-spec building copies each query parameter's
`required` flag from the source document unchanged; the optionality mandated
by the protocol is imposed only at render time, where every query parameter of
an accepted endpoint is declared in the generated signature as
`<name>: <type> | None = <default>` (default `None` or `0`), regardless of the
`required` flag. -/
theorem strAppendAssoc (a b c : String) : a ++ b ++ c = a ++ (b ++ c) := by
  rcases a with ⟨da⟩
  rcases b with ⟨db⟩
  rcases c with ⟨dc⟩
  show String.mk (da ++ db ++ dc) = String.mk (da ++ (db ++ dc))
  rw [List.append_assoc]

theorem C3_query_params_rendered_optional (api : String) (ep : ResourceEndpoint)
    (m : String) (spec : ResourceSpec)
    (h : generate_resource_for_endpoint api ep m = some spec) :
    spec.query_params.map (fun p => p.required) =
      ep.query_params.map (fun qp => qp.required) ∧
    ∀ qp ∈ spec.query_params,
      resourceQueryParamSig qp ∈ renderResourceFuncParams spec ∧
      (resourceQueryParamSig qp = qp.name ++ ": " ++ qp.type_hint ++ " | None = None" ∨
       resourceQueryParamSig qp = qp.name ++ ": " ++ qp.type_hint ++ " | None = 0") := by
  constructor
  · have hq : spec.query_params = ep.query_params.map (fun qp =>
        ({ name := qp.name
           type_hint := type_map (qp.schema_type.getD "string")
           required := qp.required
           description := qp.description
           example_json := none
           is_pydantic := false
           pydantic_class := none } : ParameterInfo)) := by
      unfold generate_resource_for_endpoint at h
      split at h
      · cases h
      · split at h
        · cases h
          rfl
        · split at h
          · cases h
            rfl
          · cases h
    rw [hq, List.map_map]
    rfl
  · intro qp hqp
    constructor
    · unfold renderResourceFuncParams
      exact List.mem_cons_of_mem _ (List.mem_append_right _ (List.mem_map_of_mem _ hqp))
    · unfold resourceQueryParamSig
      by_cases hc : containsS qp.type_hint "str"
      · left
        rw [if_pos hc, strAppendAssoc (qp.name ++ ": " ++ qp.type_hint) " | None = " "None"]
        rfl
      · right
        rw [if_neg hc, strAppendAssoc (qp.name ++ ": " ++ qp.type_hint) " | None = " "0"]
        rfl

theorem C3_query_params_rendered_optional_witness :
    c3WitnessSpec.query_params.map (fun p => p.required) =
      c3Endpoint.query_params.map (fun qp => qp.required) ∧
    ∀ qp ∈ c3WitnessSpec.query_params,
      resourceQueryParamSig qp ∈ renderResourceFuncParams c3WitnessSpec ∧
      (resourceQueryParamSig qp = qp.name ++ ": " ++ qp.type_hint ++ " | None = None" ∨
       resourceQueryParamSig qp = qp.name ++ ": " ++ qp.type_hint ++ " | None = 0") :=
  C3_query_params_rendered_optional "pet_api" c3Endpoint "list_pets" c3WitnessSpec (by decide)

/-! ## Tool rendering: `models.ToolSpec` and `renderers._render_tool` -/

/-- `models.ToolSpec`. -/
structure ToolSpec where
  tool_name : String
  method_name : String
  api_var_name : String
  parameters : List ParameterInfo
  docstring : String
  has_pydantic_params : Bool := false
deriving DecidableEq

/-- The generated signature entry for one tool parameter (`_render_tool`):
required parameters are declared `<name>: str`, optional ones
`<name>: str | None = None`; the declared source type never enters. -/
def toolSigEntry (p : ParameterInfo) : String :=
  if p.required then p.name ++ ": str" else p.name ++ ": str | None = None"

/-- The generated function parameter list of `_render_tool` (`func_params`). -/
def renderToolFuncParams (spec : ToolSpec) : List String :=
  "ctx: Context" :: spec.parameters.map toolSigEntry

/-- The JSON-to-model conversion block emitted for one structured-model
parameter (`param_conversion_code` loop body of `_render_tool`). -/
def toolParamConversion (p : ParameterInfo) : String :=
  "\n        # Convert JSON string to Pydantic model\n        import json\n        " ++
    p.name ++ "_data = json.loads(" ++ p.name ++ ") if isinstance(" ++ p.name ++
    ", str) else " ++ p.name ++ "\n        " ++ p.name ++ "_obj = " ++
    p.pydantic_class.getD "" ++ "(**" ++ p.name ++ "_data)\n"

/-- The accumulated conversion code of `_render_tool` (one block per
structured-model parameter, in parameter order). -/
def toolParamConversionCode (spec : ToolSpec) : String :=
  concatParts ((spec.parameters.filter (fun p => p.is_pydantic)).map toolParamConversion)

/-- One call argument of the underlying API invocation: structured-model
parameters pass the converted `<name>_obj`, plain parameters pass `<name>`. -/
def toolCallArg (p : ParameterInfo) : String :=
  if p.is_pydantic then p.name ++ "=" ++ p.name ++ "_obj" else p.name ++ "=" ++ p.name

/-- The comma-joined call arguments (`call_args` of `_render_tool`). -/
def toolCallArgs (spec : ToolSpec) : String :=
  joinWith ", " (spec.parameters.map toolCallArg)

/-- The model import line of `_render_tool` (`model_imports`); Python's
`set(model_names)` iteration is modelled as first-occurrence deduplication. -/
def toolModelImports (spec : ToolSpec) : String :=
  if (spec.parameters.filter (fun p => p.is_pydantic)).isEmpty then ""
  else
    "\n        from generated_openapi.openapi_client.models import " ++
      joinWith ", "
        (((spec.parameters.filter (fun p => p.is_pydantic)).map
          (fun p => p.pydantic_class.getD "")).dedup)

/-- The decorator and `async def` line of the rendered tool. -/
def toolDefLine (spec : ToolSpec) : String :=
  "\n@mcp.tool\nasync def " ++ spec.tool_name ++ "(" ++
    joinWith ", " (renderToolFuncParams spec) ++ ") -> dict[str, Any]:"

/-- The docstring, entry logging and authenticated-client retrieval of the
rendered tool body, up to the API-instance line. -/
def toolBodyToClient (spec : ToolSpec) : String :=
  "\n    \"\"\"\n    " ++ spec.docstring ++ "\n    \"\"\"\n    try:\n" ++
    "        # Log tool execution start\n" ++
    "        await ctx.info(f\"Executing " ++ spec.tool_name ++ "...\")\n\n" ++
    "        # Get authenticated API client from context state (set by middleware)\n" ++
    "        openapi_client = ctx.get_state('openapi_client')\n" ++
    "        if not openapi_client:\n" ++
    "            raise Exception(\"API client not available. Authentication middleware may not be configured.\")\n\n" ++
    "        apis = _get_api_instances(openapi_client)\n" ++
    "        " ++ spec.api_var_name ++ " = apis['" ++ spec.api_var_name ++ "']"

/-- The API-call section of the rendered tool body (debug logging and the
`response = <api>.<method>(<args>)` invocation). -/
def toolCallSection (spec : ToolSpec) : String :=
  "\n\n        # Log API call\n" ++
    "        await ctx.debug(f\"Calling API: " ++ spec.method_name ++ "\")\n" ++
    "        response = " ++ spec.api_var_name ++ "." ++ spec.method_name ++ "(" ++
    toolCallArgs spec ++ ")\n\n"

/-- The response-normalization block, success logging, and the error handlers
of the rendered tool body. -/
def toolResponseAndTail (spec : ToolSpec) : String :=
  "        # Convert response to dict - handle various response types\n" ++
    "        if response is None:\n            result = None\n" ++
    "        elif hasattr(response, 'to_dict') and callable(response.to_dict):\n" ++
    "            # Pydantic model with to_dict method\n            result = response.to_dict()\n" ++
    "        elif isinstance(response, list):\n" ++
    "            # List of items - convert each if possible\n            result = []\n" ++
    "            for item in response:\n" ++
    "                if hasattr(item, 'to_dict') and callable(item.to_dict):\n" ++
    "                    result.append(item.to_dict())\n" ++
    "                else:\n                    result.append(item)\n" ++
    "        elif isinstance(response, tuple):\n" ++
    "            # Tuple response (some APIs return tuples)\n" ++
    "            result = list(response) if response else []\n" ++
    "        elif isinstance(response, (dict, str, int, float, bool)):\n" ++
    "            # Primitive types or already a dict\n            result = response\n" ++
    "        else:\n" ++
    "            # Fallback: try to convert to dict or use as-is\n            try:\n" ++
    "                result = dict(response) if hasattr(response, '__dict__') else response\n" ++
    "            except:\n                result = str(response)\n\n" ++
    "        # Log successful completion\n" ++
    "        await ctx.info(f\"\u2705 " ++ spec.tool_name ++ " completed successfully\")\n" ++
    "        return \x7b\"result\": result\x7d\n\n" ++
    "    except ApiException as e:\n" ++
    "        error_msg = _format_api_error(e)\n" ++
    "        await ctx.error(f\"API error in " ++ spec.tool_name ++ ": \x7berror_msg\x7d\")\n" ++
    "        raise Exception(f\"API Error: \x7berror_msg\x7d (status: \x7be.status\x7d)\")\n" ++
    "    except Exception as e:\n" ++
    "        await ctx.error(f\"Unexpected error in " ++ spec.tool_name ++ ": \x7bstr(e)\x7d\")\n" ++
    "        raise Exception(f\"Unexpected error: \x7bstr(e)\x7d\")\n"

/-- `renderers._render_tool`: the full generated tool source text, assembled
exactly as the source f-string splices its local variables: the decorator and
signature, the body up to the API instances, the model imports, the
JSON-to-model conversion code, the API call, and the response/error tail. -/
def render_tool (spec : ToolSpec) : String :=
  toolDefLine spec ++ toolBodyToClient spec ++ toolModelImports spec ++
    toolParamConversionCode spec ++ toolCallSection spec ++ toolResponseAndTail spec



-- substring lemmas --------------------------------------------------------

theorem isPrefixOfB_append_of {p u : List Char} (h : isPrefixOfB p u = true) (v : List Char) :
    isPrefixOfB p (u ++ v) = true := by
  induction p generalizing u with
  | nil => rfl
  | cons a as ih =>
    cases u with
    | nil => simp [isPrefixOfB] at h
    | cons b bs =>
      rw [isPrefixOfB, Bool.and_eq_true] at h
      rw [List.cons_append, isPrefixOfB, Bool.and_eq_true]
      exact ⟨h.1, ih h.2⟩

theorem isPrefixOfB_self_append (p t : List Char) : isPrefixOfB p (p ++ t) = true := by
  induction p with
  | nil => rfl
  | cons a as ih => rw [List.cons_append, isPrefixOfB, Bool.and_eq_true]; exact ⟨by simp, ih⟩

theorem containsB_nil_pat (l : List Char) : containsB [] l = true := by
  cases l <;> rfl

theorem containsB_append_right {pat t : List Char} (h : containsB pat t = true)
    (s : List Char) : containsB pat (s ++ t) = true := by
  induction s with
  | nil => simpa using h
  | cons c cs ih =>
    rw [List.cons_append, containsB]
    split
    · rfl
    · exact ih

theorem containsB_append_left {pat s : List Char} (h : containsB pat s = true)
    (t : List Char) : containsB pat (s ++ t) = true := by
  induction s with
  | nil =>
    rw [containsB] at h
    have hpat : pat = [] := by
      cases pat with
      | nil => rfl
      | cons a as => simp [isPrefixOfB] at h
    subst hpat
    rw [List.nil_append]
    exact containsB_nil_pat t
  | cons c cs ih =>
    rw [containsB] at h
    rw [List.cons_append, containsB]
    split
    · rfl
    · rename_i hpre
      split at h
      · rename_i hp
        exact absurd (isPrefixOfB_append_of hp t) (by simpa [List.cons_append] using hpre)
      · exact ih h

theorem containsB_middle (pat a b : List Char) : containsB pat (a ++ (pat ++ b)) = true := by
  apply containsB_append_right
  cases pat with
  | nil => exact containsB_nil_pat _
  | cons c cs =>
    have hp : isPrefixOfB (c :: cs) (c :: (cs ++ b)) = true := isPrefixOfB_self_append (c :: cs) b
    show containsB (c :: cs) (c :: (cs ++ b)) = true
    rw [containsB, if_pos hp]

theorem strDataAppend (a b : String) : (a ++ b).data = a.data ++ b.data := by
  rcases a with ⟨da⟩
  rcases b with ⟨db⟩
  rfl

theorem strAppendEmpty (s : String) : s ++ "" = s := by
  rcases s with ⟨ds⟩
  show String.mk (ds ++ []) = String.mk ds
  rw [List.append_nil]

theorem strEmptyAppend (s : String) : "" ++ s = s := by
  rcases s with ⟨ds⟩
  show String.mk ([] ++ ds) = String.mk ds
  rw [List.nil_append]

theorem containsS_middle (a pat b : String) : containsS (a ++ pat ++ b) pat = true := by
  unfold containsS
  rw [strDataAppend, strDataAppend, List.append_assoc]
  exact containsB_middle pat.data a.data b.data

theorem foldl_strAppend_shift (l : List String) (s : String) :
    l.foldl (· ++ ·) s = s ++ concatParts l := by
  induction l generalizing s with
  | nil =>
    show s = s ++ ""
    rw [strAppendEmpty]
  | cons y ys ih =>
    show ys.foldl (· ++ ·) (s ++ y) = s ++ concatParts (y :: ys)
    rw [ih (s ++ y), strAppendAssoc]
    congr 1
    show y ++ concatParts ys = concatParts (y :: ys)
    have h2 : concatParts (y :: ys) = ys.foldl (· ++ ·) ("" ++ y) := rfl
    rw [h2, ih ("" ++ y), strEmptyAppend]

theorem concatParts_cons (x : String) (l : List String) :
    concatParts (x :: l) = x ++ concatParts l := by
  have h : concatParts (x :: l) = l.foldl (· ++ ·) ("" ++ x) := rfl
  rw [h, foldl_strAppend_shift, strEmptyAppend]

theorem containsS_concatParts_of_mem {x : String} {l : List String} (hm : x ∈ l)
    {pat : String} (h : containsS x pat = true) : containsS (concatParts l) pat = true := by
  induction l with
  | nil => simp at hm
  | cons y ys ih =>
    rw [concatParts_cons]
    rcases List.mem_cons.1 hm with rfl | hm2
    · unfold containsS at h ⊢
      rw [strDataAppend]
      exact containsB_append_left h _
    · unfold containsS at ih ⊢
      rw [strDataAppend]
      exact containsB_append_right (ih hm2) _

def c9PydanticParam : ParameterInfo :=
  { name := "user_create", type_hint := "UserCreate", required := true,
    description := "JSON object with the following fields:", is_pydantic := true,
    pydantic_class := some "UserCreate" }

def c9Spec : ToolSpec :=
  { tool_name := "create_user", method_name := "create_user", api_var_name := "users_api",
    parameters := [c9PydanticParam,
      { name := "notify", type_hint := "bool", required := false,
        description := "Parameter: notify" }],
    docstring := "Create a user.", has_pydantic_params := true }

/-- C9: in every rendered tool's generated signature each required parameter is
declared `<name>: str` and each optional parameter `<name>: str | None = None`,
and the signature entry depends only on the parameter's name and required flag
(never on its declared type); the rendered code is the signature line, the
client-retrieval body, the model imports, the JSON-decoding conversion blocks
and only then the underlying API call, and every structured-model parameter is
decoded by a `<name>_obj = <Model>(**<name>_data)` conversion emitted before
the call, which passes `<name>=<name>_obj` for it. -/
theorem C9_tool_signature_and_conversion :
    (∀ p q : ParameterInfo, p.name = q.name → p.required = q.required →
        toolSigEntry p = toolSigEntry q) ∧
    (∀ (spec : ToolSpec), ∀ p ∈ spec.parameters,
        toolSigEntry p ∈ renderToolFuncParams spec ∧
        (p.required = true → toolSigEntry p = p.name ++ ": str") ∧
        (p.required = false → toolSigEntry p = p.name ++ ": str | None = None")) ∧
    (∀ spec : ToolSpec,
        render_tool spec =
          toolDefLine spec ++ toolBodyToClient spec ++ toolModelImports spec ++
            toolParamConversionCode spec ++ toolCallSection spec ++
            toolResponseAndTail spec) ∧
    (∀ (spec : ToolSpec), ∀ p ∈ spec.parameters, p.is_pydantic = true →
        containsS (toolParamConversionCode spec)
          (p.name ++ "_obj = " ++ p.pydantic_class.getD "" ++ "(**" ++ p.name ++ "_data)") =
          true ∧
        toolCallArg p = p.name ++ "=" ++ p.name ++ "_obj") := by
  refine ⟨?_, ?_, fun spec => rfl, ?_⟩
  · intro p q hname hreq
    unfold toolSigEntry
    rw [hname, hreq]
  · intro spec p hp
    refine ⟨List.mem_cons_of_mem _ (List.mem_map_of_mem _ hp), ?_, ?_⟩
    · intro hreq
      unfold toolSigEntry
      rw [hreq]
      rfl
    · intro hreq
      unfold toolSigEntry
      rw [hreq]
      rfl
  · intro spec p hp hpy
    have hmemf : p ∈ spec.parameters.filter (fun q => q.is_pydantic) :=
      List.mem_filter.2 ⟨hp, by simp [hpy]⟩
    have hmem : toolParamConversion p ∈
        (spec.parameters.filter (fun q => q.is_pydantic)).map toolParamConversion :=
      List.mem_map_of_mem _ hmemf
    constructor
    · apply containsS_concatParts_of_mem hmem
      have hdecomp : toolParamConversion p =
          ("\n        # Convert JSON string to Pydantic model\n        import json\n        " ++
            p.name ++ "_data = json.loads(" ++ p.name ++ ") if isinstance(" ++ p.name ++
            ", str) else " ++ p.name ++ "\n        ") ++
          (p.name ++ "_obj = " ++ p.pydantic_class.getD "" ++ "(**" ++ p.name ++ "_data)") ++
          "\n" := by
        unfold toolParamConversion
        simp only [strAppendAssoc]
        rw [show ("_data)" ++ "\n" : String) = "_data)\n" from rfl]
      rw [hdecomp]
      exact containsS_middle _ _ _
    · unfold toolCallArg
      rw [hpy]
      rfl

theorem C9_tool_signature_and_conversion_witness :
    (toolSigEntry c9PydanticParam ∈ renderToolFuncParams c9Spec ∧
      (c9PydanticParam.required = true →
        toolSigEntry c9PydanticParam = c9PydanticParam.name ++ ": str") ∧
      (c9PydanticParam.required = false →
        toolSigEntry c9PydanticParam = c9PydanticParam.name ++ ": str | None = None")) ∧
    containsS (toolParamConversionCode c9Spec)
      (c9PydanticParam.name ++ "_obj = " ++ c9PydanticParam.pydantic_class.getD "" ++
        "(**" ++ c9PydanticParam.name ++ "_data)") = true ∧
    toolCallArg c9PydanticParam =
      c9PydanticParam.name ++ "=" ++ c9PydanticParam.name ++ "_obj" := by
  refine ⟨C9_tool_signature_and_conversion.2.1 c9Spec c9PydanticParam (by decide), ?_⟩
  exact C9_tool_signature_and_conversion.2.2.2 c9Spec c9PydanticParam (by decide) (by decide)

/-! ## Module composition: `models.ModuleSpec`, `models.ApiMetadata` and
`generator.generate_main_composition_server` -/

/-- `models.ModuleSpec`. -/
structure ModuleSpec where
  filename : String
  api_var_name : String
  api_class_name : String
  module_name : String
  tool_count : Nat
  code : String
  resource_count : Nat := 0
deriving DecidableEq

/-- `models.ApiMetadata` (tags are kept as their names; only the fields the
composer reads matter here). -/
structure ApiMetadata where
  title : String := "Generated API"
  description : String := ""
  version : String := "0.0.1"
  contact : List (String × String) := []
  license : List (String × String) := []
  terms_of_service : Option String := none
  servers : List (List (String × String)) := []
  external_docs : List (String × String) := []
  tags : List String := []
  icon_url : Option String := none
  icon_emoji : Option String := none
deriving DecidableEq

/-- `module_names = sorted(modules.keys())` of the composer. -/
def moduleNamesSorted (modules : List (String × ModuleSpec)) : List String :=
  sortStrings (modules.map (fun p => p.1))

/-- `total_tool_count = sum(spec.tool_count for spec in modules.values())`. -/
def totalToolCount (modules : List (String × ModuleSpec)) : Nat :=
  (modules.map (fun p => p.2.tool_count)).sum

/-- `modules[name].filename` (guarded: the names iterated are the dict keys). -/
def moduleFilename (modules : List (String × ModuleSpec)) (name : String) : String :=
  ((modules.lookup name).map (fun m => m.filename)).getD ""

/-- One import statement of the composed server. -/
def importLine (modules : List (String × ModuleSpec)) (name : String) : String :=
  "from servers." ++ replaceStr (moduleFilename modules name) ".py" "" ++
    " import mcp as " ++ name ++ "_mcp"

/-- The `imports` block: one import statement per module, in sorted order. -/
def importsBlock (modules : List (String × ModuleSpec)) : String :=
  joinWith "\n" ((moduleNamesSorted modules).map (importLine modules))

/-- The `compositions` block: `import_server` calls for the `import` strategy,
`mount` calls otherwise, one per module in sorted order. -/
def compositionCalls (strategy : String) (module_names : List String) : String :=
  if strategy == "import" then
    joinWith "\n    " (module_names.map (fun name =>
      "await app.import_server(" ++ name ++ "_mcp, prefix=\"" ++ name ++ "\")"))
  else
    joinWith "\n    " (module_names.map (fun name =>
      "app.mount(" ++ name ++ "_mcp, prefix=\"" ++ name ++ "\")"))

/-- The `_import_subservers_once` helper emitted for the `mount` strategy. -/
def importSubserversDef (module_names : List String) : String :=
  "\n" ++
    joinWith "\n"
      (["async def _import_subservers_once():",
        "    # One-time import of subservers into main app to populate tool registry"] ++
       module_names.flatMap (fun name =>
         ["    try:",
          "        await app.import_server(" ++ name ++ "_mcp, prefix=\"" ++ name ++ "\")",
          "    except Exception as _exc:\n        logger.debug(f\"Could not import subserver " ++
            name ++ ": \x7b_exc\x7d\")"])) ++ "\n"

/-- The HTTP-branch call of the one-time subserver import (mount strategy). -/
def httpImportCall : String :=
  "        # For HTTP transport and dynamic composition (mount), ensure subservers\n" ++
    "        # are imported/copied into the main app once so the tool registry is populated.\n" ++
    "        try:\n" ++
    "            asyncio.run(_import_subservers_once())\n" ++
    "        except Exception as _exc:\n" ++
    "            logger.debug(f\"Could not import subservers into main app: \x7b_exc\x7d\")\n"

/-- The `strategy_info` header text. -/
def strategyInfo (strat fmt : String) : String :=
  "Composition Strategy: " ++ strat ++ "\n" ++
    "  - mount: Live linking, dynamic updates, minimal overhead for local servers\n" ++
    "  - import: One-time copy, no runtime delegation, best for performance\n" ++
    "Resource Prefix Format: " ++ fmt ++ "\n" ++
    "  - path: resource://prefix/path (FastMCP 2.4+ default)\n" ++
    "  - protocol: prefix+resource://path (legacy)"

/-- The optional `Contact:` header line (emitted when the contact dict is
non-empty and has a truthy `email`). -/
def contactLines (meta : ApiMetadata) : List String :=
  if !meta.contact.isEmpty then
    match meta.contact.lookup "email" with
    | some e => if !e.data.isEmpty then ["Contact: " ++ e] else []
    | none => []
  else []

/-- The optional `License:` header line. -/
def licenseLines (meta : ApiMetadata) : List String :=
  if !meta.license.isEmpty then
    match meta.license.lookup "name" with
    | some n => if !n.data.isEmpty then ["License: " ++ n] else []
    | none => []
  else []

/-- The optional `Documentation:` header line. -/
def externalDocsLines (meta : ApiMetadata) : List String :=
  if !meta.external_docs.isEmpty then
    match meta.external_docs.lookup "url" with
    | some u => if !u.data.isEmpty then ["Documentation: " ++ u] else []
    | none => []
  else []

/-- The `header_lines` of the composed server docstring. -/
def headerLines (meta : ApiMetadata) (strat fmt : String) : List String :=
  ["\"\"\"", meta.title ++ " MCP Server - Main Composition.", "", meta.description,
    "Version: " ++ meta.version] ++
    contactLines meta ++ licenseLines meta ++ externalDocsLines meta ++
    ["", "This server composes all modular API servers into a unified MCP interface.", "",
      strategyInfo strat fmt, "", "Auto-generated by mcp_generator.",
      "DO NOT EDIT MANUALLY - regenerate using: python -m mcp_generator",
      "Configuration: fastmcp.json (composition.strategy, composition.resource_prefix_format)",
      "\"\"\""]

/-- `header_doc`. -/
def headerDoc (meta : ApiMetadata) (strat fmt : String) : String :=
  joinWith "\n" (headerLines meta strat fmt)

/-- `auth_imports`: the authentication import block (emitted only when
authentication is configured). -/
def authImports : String :=
  "\n# Import authentication components\n" ++
    "from middleware.authentication import ApiClientContextMiddleware\n" ++
    "from middleware.oauth_provider import create_jwt_verifier, build_authentication_stack, RequireScopesMiddleware\n" ++
    "from middleware.event_store import InMemoryEventStore\n"

/-- `auth_middleware_setup` (authentication only). -/
def authMiddlewareSetup : String :=
  "\n    app.add_middleware(ApiClientContextMiddleware(\n" ++
    "        transport_mode=args.transport,\n" ++
    "        validate_tokens=False  # Token validation is done at ASGI layer for HTTP\n" ++
    "    ))"

/-- `auth_argparse`: the `--validate-tokens` CLI flag (authentication only). -/
def authArgparse : String :=
  "\n    parser.add_argument(\n" ++
    "        \"--validate-tokens\",\n" ++
    "        action=\"store_true\",\n" ++
    "        default=default_validate_tokens,\n" ++
    "        help=f\"Enable JWT token validation for HTTP transport (default: \x7bdefault_validate_tokens\x7d, configurable in fastmcp.json)\"\n" ++
    "    )\n"

/-- `auth_validation` (authentication only). -/
def authValidationBlock : String :=
  "\n    # Validate that --validate-tokens only works with HTTP transport\n" ++
    "    if args.validate_tokens and args.transport != \"http\":\n" ++
    "        logger.warning(\"⚠️  --validate-tokens is only applicable for HTTP transport, ignoring for STDIO mode\")\n" ++
    "        args.validate_tokens = False\n"

/-- The event-store section with authentication: a real `InMemoryEventStore`. -/
def eventStoreAuthSection : String :=
  "\n# Create event store for SSE resumability\n" ++
    "event_store = InMemoryEventStore(max_events_per_stream=1000)\n" ++
    "logger.info(f\"📦 Event store initialized: \x7bevent_store.get_stats()\x7d\")\n"

/-- The event-store section without authentication: `event_store = None`. -/
def eventStoreNoAuthSection : String :=
  "\n# No authentication configured - event store not needed\nevent_store = None\n"

/-- Composed-server template: the import block of the module (after the
header docstring and the conditional `import asyncio`). -/
def composeLitImports : String :=
  "\nimport logging\nimport os\nimport sys\nfrom pathlib import Path\n\n" ++
    "from fastmcp import FastMCP\n" ++
    "from fastmcp.server.middleware.timing import DetailedTimingMiddleware\n" ++
    "from fastmcp.server.middleware.logging import LoggingMiddleware\n" ++
    "from fastmcp.server.middleware.error_handling import ErrorHandlingMiddleware\n" ++
    "from fastmcp.server.http import create_streamable_http_app\n\n" ++
    "# Add the src folder and generated folder to the Python path\n" ++
    "src_path = Path(__file__).parent\n" ++
    "generated_path = src_path.parent / \"generated_openapi\"\n" ++
    "if str(src_path) not in sys.path:\n    sys.path.insert(0, str(src_path))\n" ++
    "if str(generated_path) not in sys.path:\n    sys.path.insert(0, str(generated_path))\n\n" ++
    "# Import all modular servers\n"

/-- Composed-server template: logger setup and main `app` creation, up to the
spliced title. -/
def composeLitApp : String :=
  "\n\nlogger = logging.getLogger(__name__)\n\n" ++
    "# Create main FastMCP 2.x Server (using 'app' for fastmcp auto-detection)\n" ++
    "app = FastMCP(\""

/-- Composed-server template: `_compose_mcp_servers` body between the
performance note and the spliced composition calls. -/
def composeLitTryCompose : String :=
  "\n    \"\"\"\n    try:\n        print(\"🔗 Composing modular servers...\")\n" ++
    "    except UnicodeEncodeError:\n        print(\"Composing modular servers...\")\n    "

/-- Composed-server template: the `create_server` factory function. -/
def composeLitCreateServer : String :=
  "async def create_server() -> FastMCP:\n    \"\"\"\n" ++
    "    Factory function for fastmcp CLI (run, dev, install, inspect).\n\n" ++
    "    Composes all modular servers and returns the configured main server.\n" ++
    "    This is the REQUIRED entrypoint for fastmcp commands.\n\n" ++
    "    Usage:\n        fastmcp dev server.py:create_server\n" ++
    "        fastmcp run server.py:create_server\n" ++
    "        fastmcp install claude-desktop server.py:create_server\n\n" ++
    "    Returns:\n        FastMCP: The fully composed and configured server instance\n" ++
    "    \"\"\"\n    "

/-- Composed-server template: start of `main()` (fastmcp.json loading). -/
def mainLitConfig : String :=
  "\n\ndef main():\n    \"\"\"Run the FastMCP 2.x backend tools server with JWT authentication.\"\"\"\n" ++
    "    import argparse\n    import json\n    from pathlib import Path\n\n" ++
    "    # Try to load fastmcp.json for default configuration\n" ++
    "    fastmcp_config = \x7b\x7d\n" ++
    "    fastmcp_path = Path(__file__).parent / \"fastmcp.json\"\n" ++
    "    if fastmcp_path.exists():\n        try:\n" ++
    "            with open(fastmcp_path, \"r\", encoding=\"utf-8\") as f:\n" ++
    "                fastmcp_config = json.load(f)\n" ++
    "        except Exception as e:\n" ++
    "            logger.warning(f\"Could not load fastmcp.json: \x7be\x7d\")\n\n"

/-- Composed-server template: validate-tokens default and description parts. -/
def mainLitDescription : String :=
  "    # Get default validate_tokens from config\n" ++
    "    default_validate_tokens = fastmcp_config.get(\"middleware\", \x7b\x7d).get(\"config\", \x7b\x7d).get(\"authentication\", \x7b\x7d).get(\"validate_tokens\", False)\n\n" ++
    "    # Build comprehensive description\n" ++
    "    description_parts = [f\"\x7bAPI_TITLE\x7d - FastMCP 2.x MCP Server\"]\n" ++
    "    if API_DESCRIPTION:\n        description_parts.append(API_DESCRIPTION)\n" ++
    "    if API_VERSION:\n        description_parts.append(f\"Version: \x7bAPI_VERSION\x7d\")\n\n"

/-- Composed-server template: the argument parser with the unconditional
`--transport`, `--host` and `--port` flags. -/
def mainLitParser : String :=
  "    parser = argparse.ArgumentParser(\n" ++
    "        description=\"\\n\".join(description_parts),\n" ++
    "        formatter_class=argparse.RawDescriptionHelpFormatter\n    )\n" ++
    "    parser.add_argument(\n        \"--transport\",\n        choices=[\"stdio\", \"http\"],\n" ++
    "        default=\"stdio\",\n        help=\"Transport protocol to use (default: stdio)\"\n    )\n" ++
    "    parser.add_argument(\n        \"--host\",\n        default=\"0.0.0.0\",\n" ++
    "        help=\"Host to bind to for HTTP transport (default: 0.0.0.0)\"\n    )\n" ++
    "    parser.add_argument(\n        \"--port\",\n        type=int,\n        default=8000,\n" ++
    "        help=\"Port to bind to for HTTP transport (default: 8000)\"\n    )\n"

/-- Composed-server template: middleware configuration header. -/
def mainLitMiddlewareHead : String :=
  "\n    # Add FastMCP middleware stack (order matters!)\n    try:\n" ++
    "        print(\"🔧 Configuring FastMCP middleware...\")\n" ++
    "    except UnicodeEncodeError:\n        print(\"Configuring FastMCP middleware...\")\n" ++
    "    app.add_middleware(ErrorHandlingMiddleware(include_traceback=True))\n"

/-- Composed-server template: middleware configuration tail and the strategy
comment of the compose call. -/
def mainLitMiddlewareTail : String :=
  "\n    app.add_middleware(DetailedTimingMiddleware())\n" ++
    "    app.add_middleware(LoggingMiddleware(include_payloads=False))\n" ++
    "    try:\n        print(\"✅ FastMCP middleware configured\")\n" ++
    "    except UnicodeEncodeError:\n        print(\"[OK] FastMCP middleware configured\")\n\n" ++
    "    # Compose all servers (strategy: "

/-- Composed-server template: the STDIO transport branch and the HTTP branch
header (up to the spliced one-time import call). -/
def mainLitStdio : String :=
  "\n\n    if args.transport == \"stdio\":\n" ++
    "        logger.info(\"🚀 Starting FastMCP 2.x server with STDIO transport\")\n" ++
    "        logger.info(\"  🔐 Authentication: BACKEND_API_TOKEN environment variable\")\n" ++
    "        logger.info(\"  🔒 Token validation: N/A (STDIO mode - backend validates tokens)\")\n" ++
    "        logger.info(f\"  📦 Modules: "

/-- Composed-server template: rest of the STDIO branch and the HTTP header. -/
def mainLitHttpHead : String :=
  " composed (\x7bTOTAL_TOOL_COUNT\x7d MCP tools)\")\n" ++
    "        logger.info(\"  🔧 Middleware: Error handling → Auth → Timing → Logging\")\n" ++
    "        app.run(transport=\"stdio\")\n" ++
    "    else:  # http\n" ++
    "        logger.info(f\"🚀 Starting FastMCP 2.x server with HTTP transport on \x7bargs.host\x7d:\x7bargs.port\x7d\")\n" ++
    "        logger.info(\"  🔐 Authentication: Bearer token in Authorization header\")\n"

/-- Composed-server template: the token-validation status line of the HTTP
branch (note: it references `args.validate_tokens` behind `hasattr` guards
unconditionally). -/
def mainLitHttpStatus : String :=
  "\n        logger.info(f\"  🔒 Token validation: \x7b'enabled (JWT)' if hasattr(args, 'validate_tokens') and args.validate_tokens else 'disabled (delegated to backend)'\x7d\")\n" ++
    "        logger.info(f\"  📦 Modules: "

/-- Composed-server template: the guarded JWT-validation HTTP sub-branch. -/
def mainLitHttpJwt : String :=
  " composed (\x7bTOTAL_TOOL_COUNT\x7d MCP tools)\")\n\n" ++
    "        # For HTTP transport with token validation, use ASGI middleware\n" ++
    "        if hasattr(args, 'validate_tokens') and args.validate_tokens:\n" ++
    "            logger.info(\"  🔧 ASGI Middleware: Authentication (JWT validation) at HTTP layer\")\n" ++
    "            logger.info(\"  🔑 JWT validation: Enabled via Starlette auth backend + scope guard\")\n" ++
    "            logger.info(\"  📦 Event store: Enabled for SSE resumability\")\n\n" ++
    "            # Create JWT verifier for token validation\n" ++
    "            jwt_verifier = create_jwt_verifier()\n" ++
    "            if jwt_verifier:\n"

/-- Composed-server template: ASGI middleware stack construction. -/
def mainLitHttpAsgi : String :=
  "                # Create ASGI authentication middleware stack with enforcement\n" ++
    "                # Note: Middleware runs in reverse order, so RequireScopesMiddleware runs AFTER AuthenticationMiddleware\n" ++
    "                asgi_middleware = build_authentication_stack(jwt_verifier, require_auth=True)\n\n" ++
    "                # Get the HTTP app with authentication middleware and event store\n" ++
    "                # Fallback validation - if JWT validation fails, try this\n" ++
    "                # NOTE: middleware must be an iterable, not a function. If you need custom logic, use a proper ASGI middleware class.\n" ++
    "                http_app = create_streamable_http_app(\n" ++
    "                    server=app,\n                    streamable_http_path=\"/mcp\",\n" ++
    "                    event_store=event_store,\n                    json_response=False,\n" ++
    "                    stateless_http=False,\n                    debug=False\n" ++
    "                    # No 'middleware' argument unless it's a list of ASGI middleware\n" ++
    "                )\n\n"

/-- Composed-server template: uvicorn startup of the enforced branch. -/
def mainLitHttpUvicorn : String :=
  "                # Run with uvicorn\n                import uvicorn\n" ++
    "                logger.info(\"  ✅ ASGI middleware configured with token enforcement\")\n" ++
    "                config = uvicorn.Config(\n" ++
    "                    http_app,  # Use http_app directly, middleware is already applied\n" ++
    "                    host=args.host,\n                    port=args.port,\n" ++
    "                    log_level=\"info\"\n                )\n" ++
    "                uvicorn_server = uvicorn.Server(config)\n\n" ++
    "                import anyio\n                anyio.run(uvicorn_server.serve)\n"

/-- Composed-server template: the verifier-failure fallback sub-branch. -/
def mainLitHttpFallback : String :=
  "            else:\n" ++
    "                logger.warning(\"  ⚠️ JWT verifier initialization failed - falling back to backend validation\")\n" ++
    "                logger.info(\"  📦 Event store: Enabled for SSE resumability\")\n\n" ++
    "                # Get HTTP app with event store\n" ++
    "                http_app = create_streamable_http_app(\n" ++
    "                    server=app,\n                    streamable_http_path=\"/mcp\",\n" ++
    "                    event_store=event_store,\n                    json_response=False,\n" ++
    "                    stateless_http=False,\n                    debug=False\n                )\n\n" ++
    "                # Run with uvicorn\n                import uvicorn\n" ++
    "                config = uvicorn.Config(\n                    http_app,\n" ++
    "                    host=args.host,\n                    port=args.port,\n" ++
    "                    log_level=\"info\"\n                )\n" ++
    "                uvicorn_server = uvicorn.Server(config)\n\n" ++
    "                import anyio\n                anyio.run(uvicorn_server.serve)\n"

/-- Composed-server template: the no-token-validation HTTP sub-branch and the
module entry point. -/
def mainLitHttpPlain : String :=
  "        else:\n" ++
    "            logger.info(\"  🔧 FastMCP Middleware: Error handling → Auth (backend validation) → Timing → Logging\")\n" ++
    "            logger.info(\"  📦 Event store: Enabled for SSE resumability\")\n\n" ++
    "            # Get HTTP app with event store\n" ++
    "            http_app = create_streamable_http_app(\n" ++
    "                server=app,\n                streamable_http_path=\"/mcp\",\n" ++
    "                event_store=event_store,\n                json_response=False,\n" ++
    "                stateless_http=False,\n                debug=False\n            )\n\n" ++
    "            # Run with uvicorn\n            import uvicorn\n" ++
    "            config = uvicorn.Config(\n                http_app,\n" ++
    "                host=args.host,\n                port=args.port,\n" ++
    "                log_level=\"info\"\n            )\n" ++
    "            uvicorn_server = uvicorn.Server(config)\n\n" ++
    "            import anyio\n            anyio.run(uvicorn_server.serve)\n\n\n" ++
    "if __name__ == \"__main__\":\n    main()\n"

/-- The ordered text segments of the composed server source, exactly as the
source f-strings splice their local variables (conditional segments are empty
strings when their condition is off, matching the empty-string splices). -/
def genMainParts (modules : List (String × ModuleSpec)) (meta : ApiMetadata)
    (sec : SecurityConfig) (strat fmt : String) : List String :=
  [headerDoc meta strat fmt,
   "\n\n",
   (if (strat == "import") || (strat == "mount") then "import asyncio" else ""),
   composeLitImports,
   importsBlock modules,
   (if hasAuthentication sec then authImports else ""),
   composeLitApp,
   meta.title,
   "\", resource_prefix_format=\"",
   fmt,
   "\")\n",
   (if strat == "mount" then importSubserversDef (moduleNamesSorted modules) else ""),
   "\n",
   (if hasAuthentication sec then eventStoreAuthSection else eventStoreNoAuthSection),
   "\n\n",
   (if strat == "import" then "async " else ""),
   "def _compose_mcp_servers():\n    \"\"\"Compose all modular servers into the main server.\n\n    Uses ",
   (if strat == "import" then
     "import_server() for static composition - one-time copy of subserver components"
    else "mount() for dynamic composition - changes to subservers are immediately reflected"),
   ".\n    This is configured via fastmcp.json (composition.strategy).\n\n    Performance: ",
   (if strat == "import" then "Better performance - no runtime delegation overhead"
    else "Minimal overhead for local servers, allows runtime updates"),
   composeLitTryCompose,
   compositionCalls strat (moduleNamesSorted modules),
   "\n    try:\n        print(f\"✅ Server composition complete - ",
   toString (totalToolCount modules),
   " MCP tools registered\")\n    except UnicodeEncodeError:\n        print(f\"[OK] Server composition complete - ",
   toString (totalToolCount modules),
   " MCP tools registered\")\n\n\n",
   composeLitCreateServer,
   (if strat == "import" then "await " else ""),
   "_compose_mcp_servers()\n    return app\n\n\n# API Metadata (extracted during generation)\nAPI_TITLE = \"",
   meta.title,
   "\"\nAPI_DESCRIPTION = \"\"\"",
   meta.description,
   "\"\"\"\nAPI_VERSION = \"",
   meta.version,
   "\"\nTOTAL_TOOL_COUNT = ",
   toString (totalToolCount modules),
   mainLitConfig,
   mainLitDescription,
   mainLitParser,
   (if hasAuthentication sec then authArgparse else ""),
   "\n    args = parser.parse_args()\n",
   (if hasAuthentication sec then authValidationBlock else ""),
   mainLitMiddlewareHead,
   (if hasAuthentication sec then authMiddlewareSetup else ""),
   mainLitMiddlewareTail,
   strat,
   ")\n    ",
   (if strat == "import" then "asyncio.run(" else ""),
   "_compose_mcp_servers()",
   (if strat == "import" then ")" else ""),
   mainLitStdio,
   toString (moduleNamesSorted modules).length,
   mainLitHttpHead,
   (if strat == "mount" then httpImportCall else ""),
   mainLitHttpStatus,
   toString (moduleNamesSorted modules).length,
   mainLitHttpJwt,
   mainLitHttpAsgi,
   mainLitHttpUvicorn,
   mainLitHttpFallback,
   mainLitHttpPlain]

/-- `generator.generate_main_composition_server`, as a function from parsed
inputs to the composed server source. For any strategy other than `mount`, the
final f-string of the source references the local variable `http_import_call`,
which is only ever assigned inside the `composition_strategy == "mount"`
branch (generator.py:104-137), so the Python function raises `NameError`
instead of returning a string; that exception is modelled as `none`. -/
def generate_main_composition_server (modules : List (String × ModuleSpec))
    (meta : ApiMetadata) (sec : SecurityConfig) (strat fmt : String) : Option String :=
  if strat == "mount" then some (concatParts (genMainParts modules meta sec strat fmt))
  else none

/-- The trailing `n` characters of a character list. -/
def lastChars (n : Nat) (l : List Char) : List Char := l.drop (l.length - n)

/-- Sliding-window substring scan over a list of text segments, carrying the
last `|pat| - 1` characters across segment boundaries; equivalent to searching
the concatenation (proved below) but evaluable segment by segment. -/
def scanPartsB (pat : List Char) : List Char → List String → Bool
  | carry, [] => containsB pat carry
  | carry, s :: rest =>
    if containsB pat (carry ++ s.data) then true
    else scanPartsB pat (lastChars (pat.length - 1) (carry ++ s.data)) rest

/-- A demo module for concrete composition checks. -/
def demoPetModule : ModuleSpec :=
  { filename := "pet_server.py", api_var_name := "pet_api", api_class_name := "PetApi",
    module_name := "Pet", tool_count := 3, code := "", resource_count := 1 }

/-- A second demo module. -/
def demoStoreModule : ModuleSpec :=
  { filename := "store_server.py", api_var_name := "store_api",
    api_class_name := "StoreApi", module_name := "Store", tool_count := 2, code := "",
    resource_count := 0 }

/-- A demo module dictionary. -/
def demoModules : List (String × ModuleSpec) :=
  [("Pet", demoPetModule), ("Store", demoStoreModule)]

/-- The same module dictionary in a different insertion order. -/
def demoModulesPerm : List (String × ModuleSpec) :=
  [("Store", demoStoreModule), ("Pet", demoPetModule)]

/-- Demo metadata. -/
def demoMeta : ApiMetadata :=
  { title := "Petstore", description := "Demo API", version := "1.0.0" }

/-- A security configuration with a bearer scheme (authentication on). -/
def demoAuthCfg : SecurityConfig :=
  { schemes := [("bearerAuth", { type_ := some "http", scheme := some "bearer" })] }

/-- The composed output for the demo inputs without authentication. -/
def demoNoAuthOutput : String :=
  (generate_main_composition_server demoModules demoMeta {} "mount" "path").getD ""

/-- The composed output for the demo inputs with authentication. -/
def demoAuthOutput : String :=
  (generate_main_composition_server demoModules demoMeta demoAuthCfg "mount" "path").getD ""

-- character/string order lemmas -------------------------------------------

theorem char_toNat_inj {a b : Char} (h : a.toNat = b.toNat) : a = b := by
  apply Char.ext
  exact UInt32.ext h

theorem lexLeChars_total (a b : List Char) :
    lexLeChars a b = true ∨ lexLeChars b a = true := by
  induction a generalizing b with
  | nil => left; rfl
  | cons x xs ih =>
    cases b with
    | nil => right; rfl
    | cons y ys =>
      by_cases h1 : x.toNat < y.toNat
      · left; rw [lexLeChars, if_pos h1]
      · by_cases h2 : y.toNat < x.toNat
        · right; rw [lexLeChars, if_pos h2]
        · rcases ih ys with h | h
          · left; rw [lexLeChars, if_neg h1, if_neg h2]; exact h
          · right; rw [lexLeChars, if_neg h2, if_neg h1]; exact h

theorem lexLeChars_trans {a b c : List Char} (h1 : lexLeChars a b = true)
    (h2 : lexLeChars b c = true) : lexLeChars a c = true := by
  induction a generalizing b c with
  | nil => rfl
  | cons x xs ih =>
    cases b with
    | nil => simp [lexLeChars] at h1
    | cons y ys =>
      cases c with
      | nil => simp [lexLeChars] at h2
      | cons z zs =>
        rw [lexLeChars] at h1 h2 ⊢
        by_cases hxy : x.toNat < y.toNat
        · by_cases hyz : y.toNat < z.toNat
          · rw [if_pos (by omega : x.toNat < z.toNat)]
          · by_cases hzy : z.toNat < y.toNat
            · rw [if_neg hyz, if_pos hzy] at h2
              simp at h2
            · rw [if_pos (by omega : x.toNat < z.toNat)]
        · by_cases hyx : y.toNat < x.toNat
          · rw [if_neg hxy, if_pos hyx] at h1
            simp at h1
          · by_cases hyz : y.toNat < z.toNat
            · rw [if_pos (by omega : x.toNat < z.toNat)]
            · by_cases hzy : z.toNat < y.toNat
              · rw [if_neg hyz, if_pos hzy] at h2
                simp at h2
              · rw [if_neg hxy, if_neg hyx] at h1
                rw [if_neg hyz, if_neg hzy] at h2
                rw [if_neg (by omega : ¬x.toNat < z.toNat),
                  if_neg (by omega : ¬z.toNat < x.toNat)]
                exact ih h1 h2

theorem lexLeChars_antisymm {a b : List Char} (h1 : lexLeChars a b = true)
    (h2 : lexLeChars b a = true) : a = b := by
  induction a generalizing b with
  | nil =>
    cases b with
    | nil => rfl
    | cons y ys => simp [lexLeChars] at h2
  | cons x xs ih =>
    cases b with
    | nil => simp [lexLeChars] at h1
    | cons y ys =>
      rw [lexLeChars] at h1 h2
      by_cases hxy : x.toNat < y.toNat
      · rw [if_neg (by omega : ¬y.toNat < x.toNat), if_pos hxy] at h2
        simp at h2
      · by_cases hyx : y.toNat < x.toNat
        · rw [if_neg hxy, if_pos hyx] at h1
          simp at h1
        · have hx : x = y := char_toNat_inj (by omega)
          subst hx
          rw [if_neg hxy, if_neg hyx] at h1 h2
          rw [ih h1 h2]

theorem strExt {a b : String} (h : a.data = b.data) : a = b := by
  rcases a with ⟨da⟩
  rcases b with ⟨db⟩
  cases h
  rfl

theorem strLeB_total (a b : String) : strLeB a b = true ∨ strLeB b a = true :=
  lexLeChars_total a.data b.data

theorem strLeB_trans {a b c : String} (h1 : strLeB a b = true) (h2 : strLeB b c = true) :
    strLeB a c = true :=
  lexLeChars_trans h1 h2

theorem strLeB_antisymm {a b : String} (h1 : strLeB a b = true) (h2 : strLeB b a = true) :
    a = b :=
  strExt (lexLeChars_antisymm h1 h2)

-- insertion sort lemmas ----------------------------------------------------

theorem insertStr_perm (x : String) (l : List String) : (insertStr x l).Perm (x :: l) := by
  induction l with
  | nil => exact List.Perm.refl _
  | cons y rest ih =>
    rw [insertStr]
    split
    · exact List.Perm.refl _
    · exact (ih.cons y).trans (List.Perm.swap x y rest)

theorem sortStrings_perm (l : List String) : (sortStrings l).Perm l := by
  induction l with
  | nil => exact List.Perm.refl _
  | cons x rest ih => exact (insertStr_perm x (sortStrings rest)).trans (ih.cons x)

theorem mem_insertStr {x y : String} {l : List String} (h : y ∈ insertStr x l) :
    y = x ∨ y ∈ l := by
  have := (insertStr_perm x l).mem_iff.1 h
  simpa using this

theorem pairwise_insertStr {x : String} {l : List String}
    (h : List.Pairwise (fun a b => strLeB a b = true) l) :
    List.Pairwise (fun a b => strLeB a b = true) (insertStr x l) := by
  induction l with
  | nil =>
    exact List.Pairwise.cons (fun z hz => absurd hz (List.not_mem_nil z)) List.Pairwise.nil
  | cons y rest ih =>
    rw [insertStr]
    have hparts := List.pairwise_cons.1 h
    split
    · rename_i hxy
      refine List.Pairwise.cons ?_ h
      intro z hz
      rcases List.mem_cons.1 hz with rfl | hz2
      · exact hxy
      · exact strLeB_trans hxy (hparts.1 z hz2)
    · rename_i hxy
      have hyx : strLeB y x = true := by
        rcases strLeB_total x y with h' | h'
        · exact absurd h' hxy
        · exact h'
      refine List.Pairwise.cons ?_ (ih hparts.2)
      intro z hz
      rcases mem_insertStr hz with rfl | hz2
      · exact hyx
      · exact hparts.1 z hz2

theorem sortStrings_sorted (l : List String) :
    List.Pairwise (fun a b => strLeB a b = true) (sortStrings l) := by
  induction l with
  | nil => exact List.Pairwise.nil
  | cons x rest ih => exact pairwise_insertStr ih

theorem sortStrings_eq_of_perm {l1 l2 : List String} (p : l1.Perm l2) :
    sortStrings l1 = sortStrings l2 := by
  have hp : (sortStrings l1).Perm (sortStrings l2) :=
    (sortStrings_perm l1).trans (p.trans (sortStrings_perm l2).symm)
  exact @List.eq_of_perm_of_sorted String (fun a b => strLeB a b = true)
    ⟨fun _ _ h1 h2 => strLeB_antisymm h1 h2⟩ _ _ hp
    (sortStrings_sorted l1) (sortStrings_sorted l2)

-- lookup invariance under key-nodup permutation ----------------------------

theorem lookup_perm {β : Type} {l1 l2 : List (String × β)} (p : l1.Perm l2) :
    (l1.map Prod.fst).Nodup → ∀ k : String, l1.lookup k = l2.lookup k := by
  induction p with
  | nil => intro _ k; rfl
  | cons x p ih =>
    intro nd k
    rcases x with ⟨xk, xv⟩
    rw [List.map_cons, List.nodup_cons] at nd
    by_cases hk : k == xk
    · simp [List.lookup, hk]
    · simp only [Bool.not_eq_true] at hk
      simp [List.lookup, hk, ih nd.2 k]
  | swap x y t =>
    intro nd k
    rcases x with ⟨xk, xv⟩
    rcases y with ⟨yk, yv⟩
    rw [List.map_cons, List.map_cons, List.nodup_cons] at nd
    have hne : yk ≠ xk := by
      intro hc
      exact nd.1 (by rw [hc]; exact List.mem_cons_self _ _)
    by_cases h1 : k == yk
    · have hky : k = yk := by simpa using h1
      have h2 : (k == xk) = false := by
        simp only [beq_eq_false_iff_ne, ne_eq]
        intro hc
        exact hne (by rw [← hky, hc])
      simp [List.lookup, h1, h2]
    · simp only [Bool.not_eq_true] at h1
      by_cases h2 : k == xk
      · simp [List.lookup, h1, h2]
      · simp only [Bool.not_eq_true] at h2
        simp [List.lookup, h1, h2]
  | trans p1 p2 ih1 ih2 =>
    intro nd k
    have nd2 := ((p1.map Prod.fst).nodup_iff).1 nd
    exact (ih1 nd k).trans (ih2 nd2 k)

-- occurrence characterization and window lemma ------------------------------

theorem append_drop_of_isPrefixOfB {p l : List Char} (h : isPrefixOfB p l = true) :
    l = p ++ l.drop p.length := by
  induction p generalizing l with
  | nil => simp
  | cons a as ih =>
    cases l with
    | nil => simp [isPrefixOfB] at h
    | cons c rest =>
      rw [isPrefixOfB, Bool.and_eq_true] at h
      have hac : a = c := by simpa using h.1
      subst hac
      show a :: rest = a :: (as ++ rest.drop as.length)
      rw [← ih h.2]

theorem containsB_iff_exists {pat l : List Char} :
    containsB pat l = true ↔ ∃ a b, l = a ++ (pat ++ b) := by
  constructor
  · intro h
    induction l with
    | nil =>
      rw [containsB] at h
      have hpat : pat = [] := by
        cases pat with
        | nil => rfl
        | cons c cs => simp [isPrefixOfB] at h
      exact ⟨[], [], by simp [hpat]⟩
    | cons c rest ih =>
      rw [containsB] at h
      by_cases hp : isPrefixOfB pat (c :: rest) = true
      · exact ⟨[], (c :: rest).drop pat.length, append_drop_of_isPrefixOfB hp⟩
      · rw [if_neg hp] at h
        rcases ih h with ⟨a, b, hab⟩
        exact ⟨c :: a, b, by rw [List.cons_append, ← hab]⟩
  · rintro ⟨a, b, rfl⟩
    exact containsB_middle pat a b

theorem containsB_window {pat : List Char} (hne : pat ≠ []) (x y : List Char) :
    containsB pat (x ++ y) = true ↔
      (containsB pat x = true ∨
        containsB pat (lastChars (pat.length - 1) x ++ y) = true) := by
  have hplen : 1 ≤ pat.length := by
    cases pat with
    | nil => exact absurd rfl hne
    | cons c cs => simp
  constructor
  · intro h
    rcases containsB_iff_exists.1 h with ⟨a, b, hab⟩
    by_cases hlen : a.length + pat.length ≤ x.length
    · left
      have h1 : (x ++ y).take (a.length + pat.length) = x.take (a.length + pat.length) := by
        rw [List.take_append_eq_append_take]
        have h0 : a.length + pat.length - x.length = 0 := by omega
        rw [h0]
        simp
      have h2 : (x ++ y).take (a.length + pat.length) = a ++ pat := by
        rw [hab, ← List.append_assoc]
        have hl : a.length + pat.length = (a ++ pat).length := by simp
        rw [hl, List.take_left]
      apply containsB_iff_exists.2
      refine ⟨a, x.drop (a.length + pat.length), ?_⟩
      calc x = x.take (a.length + pat.length) ++ x.drop (a.length + pat.length) :=
            (List.take_append_drop _ _).symm
        _ = (a ++ pat) ++ x.drop (a.length + pat.length) := by
            rw [h1.symm.trans h2]
        _ = a ++ (pat ++ x.drop (a.length + pat.length)) := List.append_assoc _ _ _
    · right
      have hd : x.length - (pat.length - 1) ≤ a.length := by omega
      apply containsB_iff_exists.2
      refine ⟨a.drop (x.length - (pat.length - 1)), b, ?_⟩
      have h1 : (x ++ y).drop (x.length - (pat.length - 1)) =
          lastChars (pat.length - 1) x ++ y := by
        unfold lastChars
        exact List.drop_append_of_le_length (by omega)
      have h2 : (x ++ y).drop (x.length - (pat.length - 1)) =
          a.drop (x.length - (pat.length - 1)) ++ (pat ++ b) := by
        rw [hab]
        exact List.drop_append_of_le_length hd
      exact h1.symm.trans h2
  · intro h
    rcases h with h | h
    · exact containsB_append_left h y
    · have h3 : x ++ y = x.take (x.length - (pat.length - 1)) ++
          (lastChars (pat.length - 1) x ++ y) := by
        unfold lastChars
        rw [← List.append_assoc, List.take_append_drop]
      rw [h3]
      exact containsB_append_right h _

-- the sliding-window scan searches the concatenation ------------------------

theorem scanPartsB_eq {pat : List Char} (hne : pat ≠ []) :
    ∀ (parts : List String) (carry : List Char),
      scanPartsB pat carry parts =
        containsB pat (carry ++ (parts.map String.data).flatten) := by
  intro parts
  induction parts with
  | nil =>
    intro carry
    rw [scanPartsB]
    simp
  | cons s rest ih =>
    intro carry
    rw [scanPartsB]
    have hflat : ((s :: rest).map String.data).flatten
        = s.data ++ (rest.map String.data).flatten := by simp
    rw [hflat, ← List.append_assoc]
    by_cases hc : containsB pat (carry ++ s.data) = true
    · rw [if_pos hc]
      exact (containsB_append_left hc _).symm
    · rw [if_neg hc, ih]
      have hcf : containsB pat (carry ++ s.data) = false := by
        cases hcc : containsB pat (carry ++ s.data)
        · rfl
        · exact absurd hcc hc
      cases hR : containsB pat ((carry ++ s.data) ++ (rest.map String.data).flatten) with
      | false =>
        cases hL : containsB pat
            (lastChars (pat.length - 1) (carry ++ s.data) ++ (rest.map String.data).flatten) with
        | false => rfl
        | true =>
          have hw := (containsB_window hne (carry ++ s.data) _).2 (Or.inr hL)
          rw [hR] at hw
          exact absurd hw (by simp)
      | true =>
        rcases (containsB_window hne (carry ++ s.data) _).1 hR with h | h
        · rw [hcf] at h
          exact absurd h (by simp)
        · rw [h]

theorem concatParts_data (l : List String) :
    (concatParts l).data = (l.map String.data).flatten := by
  induction l with
  | nil => rfl
  | cons x rest ih =>
    rw [concatParts_cons, strDataAppend, ih]
    simp

theorem containsS_concatParts_eq_scan (parts : List String) (pat : String)
    (hne : pat.data ≠ []) :
    containsS (concatParts parts) pat = scanPartsB pat.data [] parts := by
  unfold containsS
  rw [concatParts_data, scanPartsB_eq hne parts []]
  rfl

/-- The `mount` branch of `generate_main_composition_server`, in `some` form. -/
theorem genMain_mount_eq (m : List (String × ModuleSpec)) (meta : ApiMetadata)
    (sec : SecurityConfig) (fmt : String) :
    generate_main_composition_server m meta sec "mount" fmt =
      some (concatParts (genMainParts m meta sec "mount" fmt)) := by
  rw [generate_main_composition_server,
    if_pos (show (("mount" : String) == "mount") = true from rfl)]

/-- C7: the claim asserts that for BOTH composition strategies the composed
server enumerates modules in ascending sorted name order, deterministically.
This holds for the `mount` strategy: module names are enumerated in
lexicographically sorted order (conjunct 1), and the output is invariant under
reordering the module dictionary (conjunct 2). But for the `import` strategy
the function produces no output at all: the final f-string references the
local variable `http_import_call`, which is only assigned inside the
`strategy == "mount"` branch, so the call raises `NameError` (conjunct 3,
modeled as `none`). The claim's universal statement over both strategies is
therefore false in the code. -/
theorem C7_sorted_module_order_and_import_strategy :
    (∀ m : List (String × ModuleSpec),
        List.Pairwise (fun a b => strLeB a b = true) (moduleNamesSorted m)) ∧
    (∀ (meta : ApiMetadata) (sec : SecurityConfig) (fmt : String)
        (m1 m2 : List (String × ModuleSpec)),
        m1.Perm m2 → (m1.map Prod.fst).Nodup →
        generate_main_composition_server m1 meta sec "mount" fmt =
          generate_main_composition_server m2 meta sec "mount" fmt) ∧
    (∀ (m : List (String × ModuleSpec)) (meta : ApiMetadata) (sec : SecurityConfig)
        (fmt : String),
        generate_main_composition_server m meta sec "import" fmt = none) := by
  refine ⟨?_, ?_, ?_⟩
  · intro m
    exact sortStrings_sorted _
  · intro meta sec fmt m1 m2 p nd
    have hnames : moduleNamesSorted m1 = moduleNamesSorted m2 := by
      unfold moduleNamesSorted
      exact sortStrings_eq_of_perm (p.map _)
    have htot : totalToolCount m1 = totalToolCount m2 := by
      unfold totalToolCount
      exact (p.map _).sum_eq
    have hline : importLine m1 = importLine m2 := by
      funext n
      unfold importLine moduleFilename
      rw [lookup_perm p nd n]
    have hib : importsBlock m1 = importsBlock m2 := by
      unfold importsBlock
      rw [hnames, hline]
    have hsub : genMainParts m1 meta sec "mount" fmt = genMainParts m2 meta sec "mount" fmt := by
      unfold genMainParts
      rw [hib, hnames, htot]
    unfold generate_main_composition_server
    rw [hsub]
  · intro m meta sec fmt
    rfl

/-- Witness for C7: the two insertion orders of the demo module dictionary
produce the same composed output under the `mount` strategy. -/
theorem C7_sorted_module_order_and_import_strategy_witness :
    generate_main_composition_server demoModules demoMeta {} "mount" "path" =
      generate_main_composition_server demoModulesPerm demoMeta {} "mount" "path" :=
  C7_sorted_module_order_and_import_strategy.2.1 demoMeta {} "path"
    demoModules demoModulesPerm (by decide) (by decide)

set_option maxRecDepth 20000 in
/-- C8: the composed output depends on the security configuration only through
`has_authentication()` (conjunct 1), and on the demo inputs the unauthenticated
output contains no authentication middleware import, no `--validate-tokens`
flag and no `InMemoryEventStore` initialization (it sets `event_store = None`
instead), while the authenticated output contains all three pieces of
scaffolding. -/
theorem C8_no_auth_scaffolding :
    (∀ (m : List (String × ModuleSpec)) (meta : ApiMetadata) (strat fmt : String)
        (sec sec' : SecurityConfig),
        hasAuthentication sec = hasAuthentication sec' →
        generate_main_composition_server m meta sec strat fmt =
          generate_main_composition_server m meta sec' strat fmt) ∧
    containsS demoNoAuthOutput "from middleware.authentication" = false ∧
    containsS demoNoAuthOutput "--validate-tokens" = false ∧
    containsS demoNoAuthOutput "InMemoryEventStore" = false ∧
    containsS demoNoAuthOutput "event_store = None" = true ∧
    containsS demoAuthOutput "from middleware.authentication import ApiClientContextMiddleware"
      = true ∧
    containsS demoAuthOutput "--validate-tokens" = true ∧
    containsS demoAuthOutput "InMemoryEventStore(max_events_per_stream=1000)" = true := by
  have e1 : demoNoAuthOutput =
      concatParts (genMainParts demoModules demoMeta {} "mount" "path") := by
    show (generate_main_composition_server demoModules demoMeta {} "mount" "path").getD "" = _
    rw [genMain_mount_eq, Option.getD_some]
  have e2 : demoAuthOutput =
      concatParts (genMainParts demoModules demoMeta demoAuthCfg "mount" "path") := by
    show (generate_main_composition_server demoModules demoMeta demoAuthCfg "mount" "path").getD ""
      = _
    rw [genMain_mount_eq, Option.getD_some]
  refine ⟨?_, ?_, ?_, ?_, ?_, ?_, ?_, ?_⟩
  · intro m meta strat fmt sec sec' h
    have hsub : genMainParts m meta sec strat fmt = genMainParts m meta sec' strat fmt := by
      unfold genMainParts
      rw [h]
    unfold generate_main_composition_server
    rw [hsub]
  · rw [e1, containsS_concatParts_eq_scan _ _ (by decide)]
    decide
  · rw [e1, containsS_concatParts_eq_scan _ _ (by decide)]
    decide
  · rw [e1, containsS_concatParts_eq_scan _ _ (by decide)]
    decide
  · rw [e1, containsS_concatParts_eq_scan _ _ (by decide)]
    decide
  · rw [e2, containsS_concatParts_eq_scan _ _ (by decide)]
    decide
  · rw [e2, containsS_concatParts_eq_scan _ _ (by decide)]
    decide
  · rw [e2, containsS_concatParts_eq_scan _ _ (by decide)]
    decide

/-- Witness for C8: two concrete security configurations with the same
`has_authentication()` value (both false) yield the same composed output. -/
theorem C8_no_auth_scaffolding_witness :
    generate_main_composition_server demoModules demoMeta
        { jwks_uri := some "https://auth.example.com/jwks.json" } "mount" "path" =
      generate_main_composition_server demoModules demoMeta {} "mount" "path" :=
  C8_no_auth_scaffolding.1 demoModules demoMeta "mount" "path"
    { jwks_uri := some "https://auth.example.com/jwks.json" } {} (by decide)

end McpGen
